import Mathlib

/-!
Shallow embedding of the collaborative-whiteboard relay server
(`server/main.py`).  Python dicts are modelled as insertion-ordered
association lists over `String` keys, websockets as `Nat` handles,
UUIDs / timestamps / random names as explicitly passed environment
parameters, and `datetime.now().isoformat()` values as opaque strings.
Python exceptions that escape a handler (`KeyError` on a missing
required field) are modelled with `Except Unit`.
-/

namespace Whiteboard

instance {ε α : Type} [DecidableEq ε] [DecidableEq α] : DecidableEq (Except ε α) := fun x y =>
  match x, y with
  | .ok a, .ok b =>
    if h : a = b then .isTrue (h ▸ rfl) else .isFalse (fun hh => h (Except.ok.inj hh))
  | .error a, .error b =>
    if h : a = b then .isTrue (h ▸ rfl) else .isFalse (fun hh => h (Except.error.inj hh))
  | .ok _, .error _ => .isFalse (fun h => Except.noConfusion h)
  | .error _, .ok _ => .isFalse (fun h => Except.noConfusion h)

/-- A Python dict: insertion-ordered association list with `String` keys. -/
abbrev Dict (α : Type) : Type := List (String × α)

/-- `d[k]` / `d.get(k)`: the first binding for `k`, if any. -/
def lookupD {α : Type} (m : Dict α) (k : String) : Option α :=
  (m.find? (fun p => p.1 == k)).map Prod.snd

/-- `d[k] = v`: overwrite in place when the key is present, else append
(Python dict insertion-order semantics). -/
def insertD {α : Type} (m : Dict α) (k : String) (v : α) : Dict α :=
  if (m.find? (fun p => p.1 == k)).isSome then
    m.map (fun p => if p.1 == k then (k, v) else p)
  else
    m ++ [(k, v)]

/-- `del d[k]`, made total: no-op when the key is absent. -/
def eraseD {α : Type} (m : Dict α) (k : String) : Dict α :=
  m.filter (fun p => p.1 != k)

/-- `list(d.keys())` in insertion order. -/
def keysD {α : Type} (m : Dict α) : List String :=
  m.map Prod.fst

/-- Python truthiness for an optional string: `None` and `""` are falsy. -/
def falsyS : Option String → Bool
  | none => true
  | some s => s == ""

/-- Python `a or b` on optional strings. -/
def orFalsy (a b : Option String) : Option String :=
  if falsyS a then b else a

/-- A drawable object: the server only ever reads/writes the `id` and
`timestamp` fields of the client dict; the rest is the opaque `payload`. -/
structure Obj where
  id : Option String
  timestamp : Option String
  payload : Nat
deriving DecidableEq

/-- One entry of a board's `users` list (the presence roster). -/
structure RosterEntry where
  id : String
  name : Option String
  color : String
  joined_at : String
deriving DecidableEq

/-- The per-board record held in `ConnectionManager.board_data`. -/
structure BoardData where
  objects : List Obj
  background : String
  users : List RosterEntry
deriving DecidableEq

/-- The per-user record held in `ConnectionManager.user_info`. -/
structure UserInfo where
  id : String
  name : Option String
  color : String
  session_id : Option String
  joined_at : String
  cursor : Option Nat
deriving DecidableEq

/-- The state of the global `ConnectionManager`. -/
structure ManagerState where
  active_connections : Dict (Dict Nat)
  board_data : Dict BoardData
  user_info : Dict (Dict UserInfo)
deriving DecidableEq

/-- `ConnectionManager.__init__`. -/
def initialManager : ManagerState := ⟨[], [], []⟩

/-- The fixed 10-color palette of `register_user`. -/
def colors : List String :=
  ["#FF6B6B", "#4ECDC4", "#FFD166", "#06D6A0", "#118AB2",
   "#EF476F", "#7209B7", "#3A86FF", "#FB5607", "#8338EC"]

/-- Lines 58-63 of `register_user`: first unused palette color, else
`colors[len(user_info[board_id]) % len(colors)]`. -/
def assignColor (infos : Dict UserInfo) : String :=
  let used_colors := infos.map (fun p => p.2.color)
  let available_colors := colors.filter (fun c => !(used_colors.contains c))
  match available_colors with
  | c :: _ => c
  | [] => colors.getD (infos.length % colors.length) "#FF6B6B"

/-- The `userId` / `userName` / `sessionId` fields of a `user_join` payload. -/
structure JoinData where
  userId : Option String
  userName : Option String
  sessionId : Option String
deriving DecidableEq

/-- Environment for one `register_user` call: the freshly generated UUIDs,
the random display name, and the current timestamp. -/
structure JoinEnv where
  freshUserId : String
  freshSessionId : String
  randomName : String
  now : String
deriving DecidableEq

/-- `ConnectionManager.register_user`.  Returns the new manager state and
the tuple `(user_id, user_name, color, session_id)` the Python returns. -/
def register_user (st : ManagerState) (ws : Nat) (board_id : String)
    (user_data : JoinData) (env : JoinEnv) :
    ManagerState × String × Option String × String × Option String :=
  -- generate a new identity when the client supplied no (truthy) userId
  let idTriple :=
    if falsyS user_data.userId then
      (env.freshUserId,
       if falsyS user_data.userName then some env.randomName else user_data.userName,
       some env.freshSessionId)
    else
      (user_data.userId.getD "", user_data.userName, user_data.sessionId)
  let user_id := idTriple.1
  let user_name := idTriple.2.1
  let session_id := idTriple.2.2
  -- initialize board if needed
  let st1 :=
    if (lookupD st.active_connections board_id).isSome then st
    else
      { st with
        active_connections := insertD st.active_connections board_id [],
        board_data := insertD st.board_data board_id ⟨[], "#FFFFFF", []⟩,
        user_info := insertD st.user_info board_id [] }
  -- assign color
  let infos := (lookupD st1.user_info board_id).getD []
  let color := assignColor infos
  -- store user info
  let ui : UserInfo := ⟨user_id, user_name, color, session_id, env.now, none⟩
  let st2 := { st1 with user_info := insertD st1.user_info board_id (insertD infos user_id ui) }
  -- add to active connections
  let conns := (lookupD st2.active_connections board_id).getD []
  let st3 := { st2 with
    active_connections := insertD st2.active_connections board_id (insertD conns user_id ws) }
  -- add to users list if not exists
  let entry : RosterEntry := ⟨user_id, user_name, color, env.now⟩
  let bd := (lookupD st3.board_data board_id).getD ⟨[], "#FFFFFF", []⟩
  let st4 :=
    if (bd.users.find? (fun u => u.id == user_id)).isSome then st3
    else { st3 with
      board_data := insertD st3.board_data board_id { bd with users := bd.users ++ [entry] } }
  (st4, user_id, user_name, color, session_id)

/-- `ConnectionManager.disconnect`.  Returns the new state and the Python
return value (`user_name`, which may be Python `None`, or `"User"`). -/
def disconnect (st : ManagerState) (board_id user_id : String) :
    ManagerState × Option String :=
  match lookupD st.active_connections board_id with
  | none => (st, some "User")
  | some conns =>
    let conns1 := eraseD conns user_id
    let st1 := { st with active_connections := insertD st.active_connections board_id conns1 }
    match lookupD st1.user_info board_id with
    | none => (st1, some "User")
    | some infos =>
      match lookupD infos user_id with
      | none => (st1, some "User")
      | some info =>
        let user_name := info.name
        let st2 := { st1 with user_info := insertD st1.user_info board_id (eraseD infos user_id) }
        -- remove from users list
        let st3 :=
          match lookupD st2.board_data board_id with
          | none => st2
          | some bd =>
            let bd1 := { bd with users := bd.users.filter (fun u => u.id != user_id) }
            { st2 with board_data := insertD st2.board_data board_id bd1 }
        -- clean empty boards
        let st4 :=
          if conns1.isEmpty then
            { active_connections := eraseD st3.active_connections board_id,
              board_data := eraseD st3.board_data board_id,
              user_info := eraseD st3.user_info board_id }
          else st3
        (st4, user_name)

/-- Recipient of one outbound frame: the connection's own socket
(`send_to_user`) or a board member reached through `broadcast`. -/
inductive Recipient where
  | self
  | peer (user_id : String)
deriving DecidableEq

/-- Outbound message envelopes, one constructor per server-chosen `type`. -/
inductive OutMsg where
  | init (user_id : String) (user_name : Option String) (user_color : String)
      (session_id : Option String) (bd : BoardData) (users : List RosterEntry)
  | user_joined (id : String) (name : Option String) (color : String) (joined_at : String)
  | object_added (object : Obj)
  | object_modified (object : Obj) (object_id : Option String)
  | object_removed (object_id : Option String)
  | clear_board_msg (user_id : Option String) (user_name : Option String) (boardId : Option String)
  | cursor_moved (user_id : Option String) (user_name : Option String)
      (user_color : String) (position : Nat)
  | user_updated (user_id : Option String) (oldName : Option String) (newName : Option String)
  | user_left (user_id : String) (user_name : Option String)
  | pong
deriving DecidableEq

/-- One delivered frame. -/
abbrev Sent : Type := Recipient × OutMsg

/-- `ConnectionManager.broadcast`.  `fails ws = true` models
`connection.send_json` raising for that socket.  NOTE: faithful to the
source, the `exclude_user_id` parameter is ignored by the send loop
(the code comments the check out "temporarily for debugging"), and the
failed connections are disconnected only after the loop. -/
def broadcast (st : ManagerState) (board_id : String) (message : OutMsg)
    (exclude_user_id : Option String) (fails : Nat → Bool) :
    ManagerState × List Sent :=
  match lookupD st.active_connections board_id with
  | none => (st, [])
  | some conns =>
    let sent := (conns.filter (fun p => !(fails p.2))).map
      (fun p => (Recipient.peer p.1, message))
    let disconnected := (conns.filter (fun p => fails p.2)).map Prod.fst
    let st1 := disconnected.foldl (fun s uid => (disconnect s board_id uid).1) st
    (st1, sent)

/-- `ConnectionManager.send_to_user`: unicast to the handler's own socket. -/
def send_to_user (message : OutMsg) : List Sent :=
  [(Recipient.self, message)]

/-- `ConnectionManager.add_object` (the capped append).  NOTE: this method
exists on the manager but is never called by the websocket handler, which
appends inline without the cap. -/
def manager_add_object (st : ManagerState) (board_id : String) (obj_data : Obj)
    (freshId now : String) : ManagerState :=
  match lookupD st.board_data board_id with
  | none => st
  | some bd =>
    let obj := { obj_data with id := some freshId, timestamp := some now }
    let objects1 := bd.objects ++ [obj]
    let objects2 :=
      if objects1.length > 1000 then objects1.drop (objects1.length - 1000) else objects1
    { st with board_data := insertD st.board_data board_id { bd with objects := objects2 } }

/-- An inbound client message: the `type` discriminator plus the payload
fields the handler reads; `none` models an absent key. -/
structure InEvent where
  type : String
  object : Option Obj
  object_id : Option String
  position : Option Nat
  userId : Option String
  userName : Option String
  sessionId : Option String
  oldName : Option String
  newName : Option String
  user_id : Option String
  user_name : Option String
  boardId : Option String
deriving DecidableEq

/-- An event carrying only a `type` field. -/
def mkEvent (t : String) : InEvent :=
  ⟨t, none, none, none, none, none, none, none, none, none, none, none⟩

/-- The handler's local variables `user_id` / `user_name`
(`boardId` is also a local but is never reassigned from `None`). -/
structure SessionLocals where
  user_id : Option String
  user_name : Option String
deriving DecidableEq

/-- Environment for one loop iteration: the synthetic object id the server
would mint, the current timestamp, and which sockets fail on send. -/
structure EventEnv where
  fresh_obj_id : String
  now : String
  fails : Nat → Bool

/-- Lines 230-233 / 251-256: update the `name` of the first roster entry
(resp. replace the first object) whose id matches, leaving position intact. -/
def updateFirstName : List RosterEntry → Option String → Option String → List RosterEntry
  | [], _, _ => []
  | u :: rest, uid, nm =>
    if some u.id == uid then { u with name := nm } :: rest
    else u :: updateFirstName rest uid nm

/-- Replace the first object whose `id` equals `oid` (Python `==` on
possibly-absent ids, so `None == None` matches). -/
def replaceFirst : List Obj → Option String → Obj → List Obj
  | [], _, _ => []
  | o :: rest, oid, newObj =>
    if o.id == oid then newObj :: rest else o :: replaceFirst rest oid newObj

/-- One iteration of the `Active` message loop (lines 197-333).
`Except.error ()` models an uncaught `KeyError` (a required payload field
was absent), which terminates the loop.  Returns the new manager state,
the new session locals, and the frames delivered. -/
def handleEvent (st : ManagerState) (loc : SessionLocals) (board_id : String)
    (data : InEvent) (env : EventEnv) :
    Except Unit (ManagerState × SessionLocals × List Sent) :=
  if data.type == "add_object" then
    match data.object with
    | none => .error ()
    | some obj0 =>
      let obj1 := if falsyS obj0.id then { obj0 with id := some env.fresh_obj_id } else obj0
      let obj2 := { obj1 with timestamp := some env.now }
      let st1 :=
        match lookupD st.board_data board_id with
        | none => st
        | some bd =>
          let bd1 := { bd with objects := bd.objects ++ [obj2] }
          { st with board_data := insertD st.board_data board_id bd1 }
      let res := broadcast st1 board_id (.object_added obj2) none env.fails
      .ok (res.1, loc, res.2)
  else if data.type == "update_user" then
    -- NOTE: this assignment rebinds the handler-local `user_id`
    let user_id := data.userId
    let st1 :=
      match lookupD st.user_info board_id with
      | none => st
      | some infos =>
        match user_id.bind (fun u => (lookupD infos u).map (fun i => (u, i))) with
        | none => st
        | some (u, info) =>
          let infos1 := insertD infos u { info with name := data.newName }
          { st with user_info := insertD st.user_info board_id infos1 }
    let st2 :=
      match lookupD st1.board_data board_id with
      | none => st1
      | some bd =>
        let bd1 := { bd with users := updateFirstName bd.users user_id data.newName }
        { st1 with board_data := insertD st1.board_data board_id bd1 }
    let res := broadcast st2 board_id (.user_updated user_id data.oldName data.newName)
      user_id env.fails
    .ok (res.1, { loc with user_id := user_id }, res.2)
  else if data.type == "modify_object" then
    match data.object with
    | none => .error ()
    | some obj0 =>
      let object_id := orFalsy data.object_id obj0.id
      -- line 261: `obj_data['id'] = object_id` runs after the in-place list
      -- replacement, but the replaced list element aliases the same dict,
      -- so both the stored and the broadcast object carry the fixed id
      let obj1 :=
        if obj0.id == none && !(falsyS object_id) then { obj0 with id := object_id } else obj0
      let st1 :=
        match lookupD st.board_data board_id with
        | none => st
        | some bd =>
          let bd1 := { bd with objects := replaceFirst bd.objects object_id obj1 }
          { st with board_data := insertD st.board_data board_id bd1 }
      let res := broadcast st1 board_id (.object_modified obj1 object_id) none env.fails
      .ok (res.1, loc, res.2)
  else if data.type == "remove_object" then
    let obj_id := orFalsy data.object_id (data.object.bind Obj.id)
    let st1 :=
      if !(falsyS obj_id) then
        match lookupD st.board_data board_id with
        | none => st
        | some bd =>
          let bd1 := { bd with objects := bd.objects.filter (fun o => o.id != obj_id) }
          { st with board_data := insertD st.board_data board_id bd1 }
      else st
    let res := broadcast st1 board_id (.object_removed obj_id) none env.fails
    .ok (res.1, loc, res.2)
  else if data.type == "clear_board" then
    let st1 :=
      match lookupD st.board_data board_id with
      | none => st
      | some bd =>
        let bd1 := { bd with objects := [] }
        { st with board_data := insertD st.board_data board_id bd1 }
    let uid := match data.user_id with | some v => some v | none => loc.user_id
    let uname := match data.user_name with | some v => some v | none => loc.user_name
    let res := broadcast st1 board_id (.clear_board_msg uid uname data.boardId) none env.fails
    .ok (res.1, loc, res.2)
  else if data.type == "cursor_move" then
    match data.position with
    | none => .error ()
    | some pos =>
      let st1 :=
        match lookupD st.user_info board_id with
        | none => st
        | some infos =>
          match loc.user_id.bind (fun u => (lookupD infos u).map (fun i => (u, i))) with
          | none => st
          | some (u, info) =>
            let infos1 := insertD infos u { info with cursor := some pos }
            { st with user_info := insertD st.user_info board_id infos1 }
      let infoOpt := (lookupD st1.user_info board_id).bind
        (fun infos => loc.user_id.bind (fun u => lookupD infos u))
      let uname := match infoOpt with | some i => i.name | none => some "User"
      let ucolor := match infoOpt with | some i => i.color | none => "#999999"
      let res := broadcast st1 board_id (.cursor_moved loc.user_id uname ucolor pos)
        loc.user_id env.fails
      .ok (res.1, loc, res.2)
  -- the second `elif data["type"] == "update_user"` branch of the source is
  -- unreachable: the first `update_user` branch above always matches first
  else if data.type == "ping" then
    .ok (st, loc, send_to_user .pong)
  else
    -- unrecognized type: ignored
    .ok (st, loc, [])

/-- The `while True` receive loop over a list of inbound events.  The final
`Bool` is `true` when the loop was terminated by an uncaught error, in
which case the remaining events are never processed. -/
def runLoop (board_id : String) (env : EventEnv) :
    ManagerState → SessionLocals → List InEvent → ManagerState × SessionLocals × Bool
  | st, loc, [] => (st, loc, false)
  | st, loc, d :: rest =>
    match handleEvent st loc board_id d env with
    | .ok (st1, loc1, _) => runLoop board_id env st1 loc1 rest
    | .error _ => (st, loc, true)

/-- Lines 157-192: dispatch on the first inbound message.  When it is a
`user_join`, register the user, unicast the `init` snapshot, and broadcast
`user_joined`; otherwise fall through (the connection is closed with no
identity, no state change and no frame sent).  The middle component is the
session locals, `none` when no session was established. -/
def firstMessage (st : ManagerState) (ws : Nat) (board_id : String) (data : InEvent)
    (jenv : JoinEnv) (fails : Nat → Bool) :
    ManagerState × Option SessionLocals × List Sent :=
  if data.type == "user_join" then
    let r := register_user st ws board_id ⟨data.userId, data.userName, data.sessionId⟩ jenv
    let st1 := r.1
    let user_id := r.2.1
    let user_name := r.2.2.1
    let color := r.2.2.2.1
    let session_id := r.2.2.2.2
    let bd := (lookupD st1.board_data board_id).getD ⟨[], "#FFFFFF", []⟩
    let initSent := send_to_user (.init user_id user_name color session_id bd bd.users)
    let res := broadcast st1 board_id (.user_joined user_id user_name color jenv.now)
      (some user_id) fails
    (res.1, some ⟨some user_id, user_name⟩, initSent ++ res.2)
  else
    (st, none, [])

/-- Lines 338-345: the `finally` teardown.  Python `if user_id:` skips the
whole block when the local `user_id` is `None` (or was rebound to a falsy
value); otherwise deregister and broadcast `user_left`. -/
def teardown (st : ManagerState) (board_id : String) (loc : SessionLocals)
    (fails : Nat → Bool) : ManagerState × List Sent :=
  if falsyS loc.user_id then (st, [])
  else
    let uid := loc.user_id.getD ""
    let r := disconnect st board_id uid
    let finalName := if falsyS r.2 then loc.user_name else r.2
    broadcast r.1 board_id (.user_left uid finalName) none fails

/-- One state-mutating operation of the server, for reasoning about all
reachable manager states: a successful `user_join`, a `disconnect`, one
`Active`-loop event (possibly with send failures inside its broadcast),
or a standalone broadcast pass. -/
inductive MOp where
  | join (ws : Nat) (board_id : String) (jd : JoinData) (jenv : JoinEnv)
  | leave (board_id user_id : String)
  | event (board_id : String) (loc : SessionLocals) (data : InEvent) (env : EventEnv)
  | bcast (board_id : String) (msg : OutMsg) (exclude : Option String) (fails : Nat → Bool)

/-- Apply one operation (an errored event leaves the state unchanged). -/
def applyOp (st : ManagerState) : MOp → ManagerState
  | .join ws b jd jenv => (register_user st ws b jd jenv).1
  | .leave b u => (disconnect st b u).1
  | .event b loc d env =>
    match handleEvent st loc b d env with
    | .ok r => r.1
    | .error _ => st
  | .bcast b msg ex fails => (broadcast st b msg ex fails).1

/-- The manager state after a sequence of operations from process start. -/
def runOps (ops : List MOp) : ManagerState :=
  ops.foldl applyOp initialManager


/-- Number of users currently registered on board `b` (`len(user_info[b])`). -/
def usersCount (st : ManagerState) (b : String) : Nat :=
  ((lookupD st.user_info b).getD []).length

/-- Structural well-formedness of the manager state, preserved by every
operation: the three registries share the same (duplicate-free) board keys;
a registered board has a non-empty connection map whose keys agree with its
user-info keys; roster entry ids are duplicate-free. -/
structure Inv (st : ManagerState) : Prop where
  keys_bd : keysD st.active_connections = keysD st.board_data
  keys_ui : keysD st.active_connections = keysD st.user_info
  keys_nodup : (keysD st.active_connections).Nodup
  inner : ∀ b conns infos, lookupD st.active_connections b = some conns →
    lookupD st.user_info b = some infos →
    keysD conns = keysD infos ∧ conns ≠ [] ∧ (keysD conns).Nodup
  roster_nodup : ∀ b bd, lookupD st.board_data b = some bd →
    (bd.users.map RosterEntry.id).Nodup

/-- Per-board color soundness: the colors stored for board `b` are pairwise
distinct and drawn from the palette. -/
def ColorsGood (st : ManagerState) (b : String) : Prop :=
  ∀ infos, lookupD st.user_info b = some infos →
    (infos.map (fun p => p.2.color)).Nodup ∧ ∀ p ∈ infos, p.2.color ∈ colors

/-- Every `join` targeting board `b` along the trace happens while at most
9 users are registered on `b` (so concurrency never exceeds 10 and no
re-registration happens with an exhausted palette). -/
def joinsBounded (b : String) : List MOp → ManagerState → Prop
  | [], _ => True
  | op :: rest, st =>
    (∀ ws jd jenv, op = MOp.join ws b jd jenv → usersCount st b ≤ 9) ∧
    joinsBounded b rest (applyOp st op)

/-! Concrete scenario pieces used by the concrete theorems below. -/

def jenvA : JoinEnv := ⟨"uuid-a", "sess-a", "Rand A", "t0"⟩

def jenvB : JoinEnv := ⟨"uuid-b", "sess-b", "Rand B", "t1"⟩

def joinA : MOp := .join 1 "b" ⟨some "A", some "Alice", none⟩ jenvA

def joinB : MOp := .join 2 "b" ⟨some "B", some "Bob", none⟩ jenvB

/-- The manager state after users `A` and `B` joined board `"b"`. -/
def stAB : ManagerState := runOps [joinA, joinB]

/-- An environment in which no send ever fails. -/
def envNF : EventEnv := ⟨"obj-1", "t2", fun _ => false⟩

def cursorEvt : InEvent := { mkEvent "cursor_move" with position := some 7 }

def addEvt : InEvent := { mkEvent "add_object" with object := some ⟨none, none, 0⟩ }

/-- User `A` sending one `add_object` event on board `"b"`. -/
def addOp : MOp := .event "b" ⟨some "A", some "Alice"⟩ addEvt envNF

/-- One application of the (uncalled) capped `ConnectionManager.add_object`
method to board `"b"`. -/
def managerAddStep (s : ManagerState) : ManagerState :=
  manager_add_object s "b" ⟨none, none, 0⟩ "obj-m" "tm"

/-- Ten users `u0` ... `u9` joining board `"b"`. -/
def joins10 : List MOp :=
  (List.range 10).map
    (fun i => .join i "b" ⟨some ("u" ++ toString i), none, none⟩ ⟨"f", "s", "n", "t"⟩)

/-- User `u1` re-registering (a second tab resuming the stored identity)
while all ten palette colors are in use. -/
def rejoinU1 : MOp := .join 12 "b" ⟨some "u1", none, none⟩ ⟨"f", "s", "n", "t"⟩


/-- The user id `register_user` binds: fresh when the client's is falsy. -/
def regUid (jd : JoinData) (env : JoinEnv) : String :=
  if falsyS jd.userId then env.freshUserId else jd.userId.getD ""

/-- The display name `register_user` binds (generated only alongside a
fresh user id). -/
def regName (jd : JoinData) (env : JoinEnv) : Option String :=
  if falsyS jd.userId then
    (if falsyS jd.userName then some env.randomName else jd.userName)
  else jd.userName

/-- The session id `register_user` binds. -/
def regSid (jd : JoinData) (env : JoinEnv) : Option String :=
  if falsyS jd.userId then some env.freshSessionId else jd.sessionId

/-! ### Dictionary lemmas -/

theorem lookupD_nil {α : Type} (k : String) : lookupD ([] : Dict α) k = none := rfl

theorem lookupD_cons {α : Type} (k' : String) (v' : α) (m : Dict α) (k : String) :
    lookupD ((k', v') :: m) k = if k' = k then some v' else lookupD m k := by
  by_cases h : k' = k <;> simp [lookupD, List.find?_cons, h]

theorem insertD_cons {α : Type} (k' : String) (v' : α) (m : Dict α) (k : String) (v : α) :
    insertD ((k', v') :: m) k v =
      if k' = k then (k, v) :: m.map (fun p => if p.1 == k then (k, v) else p)
      else (k', v') :: insertD m k v := by
  by_cases h : k' = k
  · simp [insertD, List.find?_cons, h]
  · have hb : (k' == k) = false := by simp [h]
    by_cases hs : (m.find? (fun p => p.1 == k)).isSome <;>
      simp [insertD, List.find?_cons, hb, h, hs]

theorem lookupD_insertD_self {α : Type} (m : Dict α) (k : String) (v : α) :
    lookupD (insertD m k v) k = some v := by
  induction m with
  | nil => simp [insertD, lookupD]
  | cons p rest ih =>
    rw [insertD_cons]
    by_cases hp : p.1 = k
    · simp [hp, lookupD_cons]
    · rw [if_neg hp, lookupD_cons, if_neg hp]
      exact ih

theorem lookupD_insertD_ne {α : Type} (m : Dict α) (k k' : String) (v : α) (h : k ≠ k') :
    lookupD (insertD m k v) k' = lookupD m k' := by
  induction m with
  | nil => simp [insertD, lookupD_cons, lookupD, h]
  | cons p rest ih =>
    rw [insertD_cons]
    by_cases hp : p.1 = k
    · rw [if_pos hp, lookupD_cons, if_neg h, lookupD_cons, if_neg (hp ▸ h)]
      clear ih
      induction rest with
      | nil => rfl
      | cons q qrest ihq =>
        by_cases hq : q.1 = k
        · simp only [List.map_cons, hq, beq_self_eq_true, if_true]
          rw [lookupD_cons, if_neg h, lookupD_cons, if_neg (hq ▸ h)]
          exact ihq
        · have : (q.1 == k) = false := by simp [hq]
          simp only [List.map_cons, this, Bool.false_eq_true, if_false]
          rw [lookupD_cons, lookupD_cons]
          by_cases hq' : q.1 = k'
          · simp [hq']
          · rw [if_neg hq', if_neg hq']
            exact ihq
    · rw [if_neg hp, lookupD_cons, lookupD_cons]
      by_cases hp' : p.1 = k'
      · simp [hp']
      · rw [if_neg hp', if_neg hp']
        exact ih

theorem eraseD_cons {α : Type} (k' : String) (v' : α) (m : Dict α) (k : String) :
    eraseD ((k', v') :: m) k = if k' = k then eraseD m k else (k', v') :: eraseD m k := by
  by_cases h : k' = k <;> simp [eraseD, List.filter_cons, h]

theorem lookupD_eraseD_self {α : Type} (m : Dict α) (k : String) :
    lookupD (eraseD m k) k = none := by
  induction m with
  | nil => rfl
  | cons p rest ih =>
    rw [show (p :: rest : Dict α) = (p.1, p.2) :: rest from rfl, eraseD_cons]
    by_cases hp : p.1 = k
    · rw [if_pos hp]; exact ih
    · rw [if_neg hp, lookupD_cons, if_neg hp]; exact ih

theorem lookupD_eraseD_ne {α : Type} (m : Dict α) (k k' : String) (h : k ≠ k') :
    lookupD (eraseD m k) k' = lookupD m k' := by
  induction m with
  | nil => rfl
  | cons p rest ih =>
    rw [show (p :: rest : Dict α) = (p.1, p.2) :: rest from rfl, eraseD_cons, lookupD_cons]
    by_cases hp : p.1 = k
    · rw [if_pos hp, if_neg (hp ▸ h ∘ Eq.symm ∘ Eq.symm)]
      exact ih
    · rw [if_neg hp, lookupD_cons]
      by_cases hp' : p.1 = k'
      · simp [hp']
      · rw [if_neg hp', if_neg hp']
        exact ih


theorem keysD_nil {α : Type} : keysD ([] : Dict α) = [] := rfl

theorem keysD_cons {α : Type} (p : String × α) (m : Dict α) :
    keysD (p :: m) = p.1 :: keysD m := rfl

theorem mem_keysD_iff {α : Type} (m : Dict α) (k : String) :
    k ∈ keysD m ↔ (lookupD m k).isSome := by
  induction m with
  | nil => simp [keysD, lookupD]
  | cons p rest ih =>
    rw [show (p :: rest : Dict α) = (p.1, p.2) :: rest from rfl, keysD_cons, lookupD_cons]
    by_cases hp : p.1 = k
    · simp [hp]
    · simp only [List.mem_cons, if_neg hp]
      constructor
      · rintro (h | h)
        · exact absurd h.symm hp
        · exact ih.mp h
      · intro h
        exact Or.inr (ih.mpr h)

theorem lookupD_eq_none_iff {α : Type} (m : Dict α) (k : String) :
    lookupD m k = none ↔ k ∉ keysD m := by
  rw [mem_keysD_iff]
  cases h : lookupD m k <;> simp [h]

theorem insertD_absent {α : Type} (m : Dict α) (k : String) (v : α)
    (h : lookupD m k = none) : insertD m k v = m ++ [(k, v)] := by
  have : m.find? (fun p => p.1 == k) = none := by
    unfold lookupD at h
    cases hf : m.find? (fun p => p.1 == k) <;> simp [hf] at h ⊢
  simp [insertD, this]

theorem keysD_insertD_absent {α : Type} (m : Dict α) (k : String) (v : α)
    (h : lookupD m k = none) : keysD (insertD m k v) = keysD m ++ [k] := by
  rw [insertD_absent m k v h]
  simp [keysD]

theorem keysD_insertD_present {α : Type} (m : Dict α) (k : String) (v : α)
    (h : (lookupD m k).isSome) : keysD (insertD m k v) = keysD m := by
  have : (m.find? (fun p => p.1 == k)).isSome := by
    unfold lookupD at h
    cases hf : m.find? (fun p => p.1 == k) <;> simp [hf] at h ⊢
  simp only [insertD, this, if_true, keysD, List.map_map]
  apply List.map_congr_left
  intro p _
  by_cases hp : p.1 = k <;> simp [hp]

theorem keysD_eraseD {α : Type} (m : Dict α) (k : String) :
    keysD (eraseD m k) = (keysD m).filter (fun x => x != k) := by
  induction m with
  | nil => rfl
  | cons p rest ih =>
    rw [show (p :: rest : Dict α) = (p.1, p.2) :: rest from rfl, eraseD_cons, keysD_cons]
    by_cases hp : p.1 = k
    · simp only [if_pos hp, List.filter_cons]
      have : (p.1 != k) = false := by simp [hp]
      rw [this]
      exact ih
    · have : (p.1 != k) = true := by simp [hp]
      simp only [if_neg hp, keysD_cons, List.filter_cons, this, if_true]
      rw [ih]

theorem insertD_ne_nil {α : Type} (m : Dict α) (k : String) (v : α) :
    insertD m k v ≠ [] := by
  cases m with
  | nil => simp [insertD]
  | cons p rest =>
    rw [show (p :: rest : Dict α) = (p.1, p.2) :: rest from rfl, insertD_cons]
    by_cases hp : p.1 = k <;> simp [hp]

theorem eraseD_of_lookup_none {α : Type} (m : Dict α) (k : String)
    (h : lookupD m k = none) : eraseD m k = m := by
  induction m with
  | nil => rfl
  | cons p rest ih =>
    rw [show (p :: rest : Dict α) = (p.1, p.2) :: rest from rfl, lookupD_cons] at h
    by_cases hp : p.1 = k
    · rw [if_pos hp] at h
      exact absurd h (by simp)
    · rw [if_neg hp] at h
      rw [show (p :: rest : Dict α) = (p.1, p.2) :: rest from rfl, eraseD_cons, if_neg hp, ih h]

theorem map_replace_eq_self {α : Type} (k : String) (v : α) (l : List (String × α))
    (hl : ∀ q ∈ l, q.1 ≠ k) :
    l.map (fun p => if p.1 == k then (k, v) else p) = l := by
  induction l with
  | nil => rfl
  | cons q qr ihq =>
    have hb : (q.1 == k) = false := by simp [hl q (by simp)]
    simp only [List.map_cons, hb, Bool.false_eq_true, if_false]
    rw [ihq (fun x hx => hl x (by simp [hx]))]

theorem insertD_present_decomp {α : Type} (m : Dict α) (k : String) (v0 v : α)
    (hnd : (keysD m).Nodup) (h : lookupD m k = some v0) :
    ∃ l r, m = l ++ (k, v0) :: r ∧ insertD m k v = l ++ (k, v) :: r ∧
      (∀ p ∈ l, p.1 ≠ k) ∧ (∀ p ∈ r, p.1 ≠ k) := by
  induction m with
  | nil => simp [lookupD] at h
  | cons p rest ih =>
    rw [show (p :: rest : Dict α) = (p.1, p.2) :: rest from rfl] at *
    rw [lookupD_cons] at h
    rw [keysD_cons, List.nodup_cons] at hnd
    by_cases hp : p.1 = k
    · rw [if_pos hp] at h
      have hv : p.2 = v0 := Option.some.inj h
      have hrest : ∀ q ∈ rest, q.1 ≠ k := by
        intro q hq hqk
        rw [hp] at hnd
        exact hnd.1 (hqk ▸ List.mem_map_of_mem Prod.fst hq)
      refine ⟨[], rest, ?_, ?_, by simp, hrest⟩
      · rw [← hp, ← hv]
        rfl
      · rw [insertD_cons, if_pos hp, map_replace_eq_self k v rest hrest]
        rfl
    · rw [if_neg hp] at h
      obtain ⟨l, r, hm, hins, hl, hr⟩ := ih hnd.2 h
      refine ⟨(p.1, p.2) :: l, r, ?_, ?_, ?_, hr⟩
      · rw [hm]
        rfl
      · rw [insertD_cons, if_neg hp, hins]
        rfl
      · intro q hq
        rcases List.mem_cons.mp hq with hq | hq
        · rw [hq]
          exact hp
        · exact hl q hq

theorem insertD_self_of_lookup {α : Type} (m : Dict α) (k : String) (v : α)
    (hnd : (keysD m).Nodup) (h : lookupD m k = some v) : insertD m k v = m := by
  obtain ⟨l, r, hm, hins, _, _⟩ := insertD_present_decomp m k v v hnd h
  rw [hins, hm]

theorem length_insertD_present {α : Type} (m : Dict α) (k : String) (v : α)
    (h : (lookupD m k).isSome) : (insertD m k v).length = m.length := by
  have : (m.find? (fun p => p.1 == k)).isSome := by
    unfold lookupD at h
    cases hf : m.find? (fun p => p.1 == k) <;> simp [hf] at h ⊢
  simp [insertD, this]

theorem length_insertD_absent {α : Type} (m : Dict α) (k : String) (v : α)
    (h : lookupD m k = none) : (insertD m k v).length = m.length + 1 := by
  rw [insertD_absent m k v h]
  simp

theorem keysD_nodup_insertD {α : Type} (m : Dict α) (k : String) (v : α)
    (hnd : (keysD m).Nodup) : (keysD (insertD m k v)).Nodup := by
  cases h : lookupD m k with
  | none =>
    rw [keysD_insertD_absent m k v h]
    have hk : k ∉ keysD m := (lookupD_eq_none_iff m k).mp h
    rw [List.nodup_append]
    refine ⟨hnd, by simp, ?_⟩
    intro a ha hak
    rw [List.mem_singleton] at hak
    exact hk (hak ▸ ha)
  | some w =>
    rw [keysD_insertD_present m k v (by simp [h])]
    exact hnd

theorem keysD_nodup_eraseD {α : Type} (m : Dict α) (k : String)
    (hnd : (keysD m).Nodup) : (keysD (eraseD m k)).Nodup := by
  rw [keysD_eraseD]
  exact hnd.filter _

theorem eraseD_sublist {α : Type} (m : Dict α) (k : String) : (eraseD m k).Sublist m :=
  List.filter_sublist m

theorem lookupD_mem {α : Type} (m : Dict α) (k : String) (v : α)
    (h : lookupD m k = some v) : (k, v) ∈ m := by
  induction m with
  | nil => simp [lookupD] at h
  | cons p rest ih =>
    rw [show (p :: rest : Dict α) = (p.1, p.2) :: rest from rfl] at *
    rw [lookupD_cons] at h
    by_cases hp : p.1 = k
    · rw [if_pos hp] at h
      have hv := Option.some.inj h
      rw [← hp, ← hv]
      exact List.mem_cons_self _ _
    · rw [if_neg hp] at h
      exact List.mem_cons_of_mem _ (ih h)

/-! ### Broadcast and disconnect lemmas -/

theorem foldl_preserve {σ τ : Type} (P : σ → Prop) (f : σ → τ → σ)
    (hstep : ∀ s x, P s → P (f s x)) :
    ∀ (l : List τ) (s : σ), P s → P (l.foldl f s) := by
  intro l
  induction l with
  | nil => intro s hs; exact hs
  | cons x xs ih => intro s hs; exact ih (f s x) (hstep s x hs)

theorem broadcast_absent (st : ManagerState) (b : String) (msg : OutMsg)
    (ex : Option String) (fails : Nat → Bool)
    (h : lookupD st.active_connections b = none) :
    broadcast st b msg ex fails = (st, []) := by
  simp [broadcast, h]

theorem broadcast_present (st : ManagerState) (b : String) (msg : OutMsg)
    (ex : Option String) (fails : Nat → Bool) (conns : Dict Nat)
    (h : lookupD st.active_connections b = some conns) :
    broadcast st b msg ex fails =
      (((conns.filter (fun p => fails p.2)).map Prod.fst).foldl
          (fun s uid => (disconnect s b uid).1) st,
       (conns.filter (fun p => !(fails p.2))).map (fun p => (Recipient.peer p.1, msg))) := by
  simp [broadcast, h]

theorem broadcast_nofail (st : ManagerState) (b : String) (msg : OutMsg)
    (ex : Option String) (fails : Nat → Bool) (conns : Dict Nat)
    (h : lookupD st.active_connections b = some conns)
    (hf : ∀ p ∈ conns, fails p.2 = false) :
    broadcast st b msg ex fails = (st, conns.map (fun p => (Recipient.peer p.1, msg))) := by
  rw [broadcast_present st b msg ex fails conns h]
  have h1 : conns.filter (fun p => fails p.2) = [] := by
    rw [List.filter_eq_nil_iff]
    intro p hp
    simp [hf p hp]
  have h2 : conns.filter (fun p => !(fails p.2)) = conns := by
    rw [List.filter_eq_self]
    intro p hp
    simp [hf p hp]
  rw [h1, h2]
  simp

theorem broadcast_fst_const_false (st : ManagerState) (b : String) (msg : OutMsg)
    (ex : Option String) :
    (broadcast st b msg ex (fun _ => false)).1 = st := by
  cases h : lookupD st.active_connections b with
  | none => rw [broadcast_absent st b msg ex _ h]
  | some conns =>
    rw [broadcast_nofail st b msg ex _ conns h (fun p _ => rfl)]

theorem eraseD_insertD {α : Type} (m : Dict α) (k : String) (v : α) :
    eraseD (insertD m k v) k = eraseD m k := by
  induction m with
  | nil => simp [insertD, eraseD]
  | cons p rest ih =>
    rw [show (p :: rest : Dict α) = (p.1, p.2) :: rest from rfl, insertD_cons]
    by_cases hp : p.1 = k
    · rw [if_pos hp, eraseD_cons, eraseD_cons, if_pos rfl, if_pos hp]
      clear ih
      induction rest with
      | nil => rfl
      | cons q qrest ihq =>
        by_cases hq : q.1 = k
        · have hqb : (q.1 == k) = true := by simp [hq]
          simp only [List.map_cons, hqb, if_true]
          rw [show (q :: qrest : Dict α) = (q.1, q.2) :: qrest from rfl, eraseD_cons,
            eraseD_cons, if_pos rfl, if_pos hq]
          exact ihq
        · have hqb : (q.1 == k) = false := by simp [hq]
          simp only [List.map_cons, hqb, Bool.false_eq_true, if_false]
          rw [show (q :: qrest : Dict α) = (q.1, q.2) :: qrest from rfl, eraseD_cons,
            eraseD_cons, if_neg hq, if_neg hq]
          rw [ihq]
    · rw [if_neg hp, eraseD_cons, eraseD_cons, if_neg hp, if_neg hp, ih]

theorem disconnect_absent (st : ManagerState) (b u : String)
    (h : lookupD st.active_connections b = none) :
    disconnect st b u = (st, some "User") := by
  simp [disconnect, h]

theorem disconnect_noinfo (st : ManagerState) (b u : String) (conns : Dict Nat)
    (hc : lookupD st.active_connections b = some conns)
    (hui : lookupD st.user_info b = none) :
    disconnect st b u =
      ({ st with active_connections := insertD st.active_connections b (eraseD conns u) },
       some "User") := by
  simp [disconnect, hc, hui]

theorem disconnect_nouser (st : ManagerState) (b u : String) (conns : Dict Nat)
    (infos : Dict UserInfo)
    (hc : lookupD st.active_connections b = some conns)
    (hui : lookupD st.user_info b = some infos)
    (hli : lookupD infos u = none) :
    disconnect st b u =
      ({ st with active_connections := insertD st.active_connections b (eraseD conns u) },
       some "User") := by
  simp [disconnect, hc, hui, hli]

theorem disconnect_full_keep (st : ManagerState) (b u : String) (conns : Dict Nat)
    (infos : Dict UserInfo) (info : UserInfo) (bd : BoardData)
    (hc : lookupD st.active_connections b = some conns)
    (hui : lookupD st.user_info b = some infos)
    (hli : lookupD infos u = some info)
    (hbd : lookupD st.board_data b = some bd)
    (hne : (eraseD conns u).isEmpty = false) :
    disconnect st b u =
      (⟨insertD st.active_connections b (eraseD conns u),
        insertD st.board_data b { bd with users := bd.users.filter (fun x => x.id != u) },
        insertD st.user_info b (eraseD infos u)⟩,
       info.name) := by
  simp [disconnect, hc, hui, hli, hbd, hne]

theorem disconnect_full_clean (st : ManagerState) (b u : String) (conns : Dict Nat)
    (infos : Dict UserInfo) (info : UserInfo)
    (hc : lookupD st.active_connections b = some conns)
    (hui : lookupD st.user_info b = some infos)
    (hli : lookupD infos u = some info)
    (hemp : (eraseD conns u).isEmpty = true) :
    disconnect st b u =
      (⟨eraseD st.active_connections b, eraseD st.board_data b, eraseD st.user_info b⟩,
       info.name) := by
  cases hbd : lookupD st.board_data b with
  | none =>
    simp only [disconnect, hc, hui, hli, hbd, hemp, if_true]
    rw [eraseD_insertD, eraseD_insertD]
  | some bd =>
    simp only [disconnect, hc, hui, hli, hbd, hemp, if_true]
    rw [eraseD_insertD, eraseD_insertD, eraseD_insertD]

theorem disconnect_full_keep_nobd (st : ManagerState) (b u : String) (conns : Dict Nat)
    (infos : Dict UserInfo) (info : UserInfo)
    (hc : lookupD st.active_connections b = some conns)
    (hui : lookupD st.user_info b = some infos)
    (hli : lookupD infos u = some info)
    (hbd : lookupD st.board_data b = none)
    (hne : (eraseD conns u).isEmpty = false) :
    disconnect st b u =
      (⟨insertD st.active_connections b (eraseD conns u), st.board_data,
        insertD st.user_info b (eraseD infos u)⟩,
       info.name) := by
  simp [disconnect, hc, hui, hli, hbd, hne]

theorem lookupD_eraseD_none_of_none {α : Type} (m : Dict α) (u v : String)
    (h : lookupD m u = none) : lookupD (eraseD m v) u = none := by
  by_cases hv : v = u
  · rw [hv]
    exact lookupD_eraseD_self m u
  · rw [lookupD_eraseD_ne m v u hv]
    exact h

/-- After `disconnect st b u`, the user `u` is no longer in board `b`'s
connection map (if the board still exists at all). -/
theorem disconnect_active_self (st : ManagerState) (b u : String) :
    ∀ m, lookupD (disconnect st b u).1.active_connections b = some m →
      lookupD m u = none := by
  intro m hm
  cases hc : lookupD st.active_connections b with
  | none =>
    rw [disconnect_absent st b u hc] at hm
    rw [hc] at hm
    exact Option.noConfusion hm
  | some conns =>
    cases hui : lookupD st.user_info b with
    | none =>
      rw [disconnect_noinfo st b u conns hc hui] at hm
      dsimp only at hm
      rw [lookupD_insertD_self] at hm
      rw [← Option.some.inj hm]
      exact lookupD_eraseD_self conns u
    | some infos =>
      cases hli : lookupD infos u with
      | none =>
        rw [disconnect_nouser st b u conns infos hc hui hli] at hm
        dsimp only at hm
        rw [lookupD_insertD_self] at hm
        rw [← Option.some.inj hm]
        exact lookupD_eraseD_self conns u
      | some info =>
        cases hemp : (eraseD conns u).isEmpty with
        | true =>
          rw [disconnect_full_clean st b u conns infos info hc hui hli hemp] at hm
          dsimp only at hm
          rw [lookupD_eraseD_self] at hm
          exact Option.noConfusion hm
        | false =>
          cases hbd : lookupD st.board_data b with
          | none =>
            rw [disconnect_full_keep_nobd st b u conns infos info hc hui hli hbd hemp] at hm
            dsimp only at hm
            rw [lookupD_insertD_self] at hm
            rw [← Option.some.inj hm]
            exact lookupD_eraseD_self conns u
          | some bd =>
            rw [disconnect_full_keep st b u conns infos info bd hc hui hli hbd hemp] at hm
            dsimp only at hm
            rw [lookupD_insertD_self] at hm
            rw [← Option.some.inj hm]
            exact lookupD_eraseD_self conns u

/-- Once `u` is out of board `b`'s connection map, later disconnects never
put it back. -/
theorem disconnect_active_mono (st : ManagerState) (b u v : String)
    (hP : ∀ m, lookupD st.active_connections b = some m → lookupD m u = none) :
    ∀ m, lookupD (disconnect st b v).1.active_connections b = some m →
      lookupD m u = none := by
  intro m hm
  cases hc : lookupD st.active_connections b with
  | none =>
    rw [disconnect_absent st b v hc] at hm
    rw [hc] at hm
    exact Option.noConfusion hm
  | some conns =>
    have hcu : lookupD conns u = none := hP conns hc
    cases hui : lookupD st.user_info b with
    | none =>
      rw [disconnect_noinfo st b v conns hc hui] at hm
      dsimp only at hm
      rw [lookupD_insertD_self] at hm
      rw [← Option.some.inj hm]
      exact lookupD_eraseD_none_of_none conns u v hcu
    | some infos =>
      cases hli : lookupD infos v with
      | none =>
        rw [disconnect_nouser st b v conns infos hc hui hli] at hm
        dsimp only at hm
        rw [lookupD_insertD_self] at hm
        rw [← Option.some.inj hm]
        exact lookupD_eraseD_none_of_none conns u v hcu
      | some info =>
        cases hemp : (eraseD conns v).isEmpty with
        | true =>
          rw [disconnect_full_clean st b v conns infos info hc hui hli hemp] at hm
          dsimp only at hm
          rw [lookupD_eraseD_self] at hm
          exact Option.noConfusion hm
        | false =>
          cases hbd : lookupD st.board_data b with
          | none =>
            rw [disconnect_full_keep_nobd st b v conns infos info hc hui hli hbd hemp] at hm
            dsimp only at hm
            rw [lookupD_insertD_self] at hm
            rw [← Option.some.inj hm]
            exact lookupD_eraseD_none_of_none conns u v hcu
          | some bd =>
            rw [disconnect_full_keep st b v conns infos info bd hc hui hli hbd hemp] at hm
            dsimp only at hm
            rw [lookupD_insertD_self] at hm
            rw [← Option.some.inj hm]
            exact lookupD_eraseD_none_of_none conns u v hcu

/-- Folding `disconnect` over a list of users removes each of them from the
board's connection map. -/
theorem fold_disconnect_removes (b : String) (us : List String) (st : ManagerState)
    (u : String) (hu : u ∈ us) :
    ∀ m, lookupD ((us.foldl (fun s x => (disconnect s b x).1) st)).active_connections b
        = some m → lookupD m u = none := by
  induction us generalizing st with
  | nil => cases hu
  | cons v rest ih =>
    rw [List.foldl_cons]
    rcases List.mem_cons.mp hu with hv | hv
    · subst hv
      exact foldl_preserve
        (fun s => ∀ m, lookupD s.active_connections b = some m → lookupD m u = none)
        (fun s x => (disconnect s b x).1)
        (fun s x hP => disconnect_active_mono s b u x hP)
        rest _ (disconnect_active_self st b u)
    · exact ih _ hv

/-! ### Claim C8 -/

/-- C8: during a broadcast pass over a board's members, a send failure to
one connection aborts neither delivery to the remaining connections nor the
sender (the frame list contains every non-failing member, in map order,
whatever the other sends did); every failed connection is recorded during
the iteration and torn down via `disconnect` only after the pass over the
member map completes, after which it is absent from the board's connection
map. -/
theorem broadcast_isolates_failures_and_defers_teardown
    (st : ManagerState) (b : String) (msg : OutMsg) (ex : Option String)
    (fails : Nat → Bool) (conns : Dict Nat)
    (h : lookupD st.active_connections b = some conns) :
    (broadcast st b msg ex fails).2 =
      (conns.filter (fun p => !(fails p.2))).map (fun p => (Recipient.peer p.1, msg)) ∧
    (broadcast st b msg ex fails).1 =
      ((conns.filter (fun p => fails p.2)).map Prod.fst).foldl
        (fun s uid => (disconnect s b uid).1) st ∧
    ∀ u ∈ (conns.filter (fun p => fails p.2)).map Prod.fst,
      ∀ m, lookupD (broadcast st b msg ex fails).1.active_connections b = some m →
        lookupD m u = none := by
  have hb := broadcast_present st b msg ex fails conns h
  refine ⟨by rw [hb], by rw [hb], ?_⟩
  intro u hu m hm
  rw [hb] at hm
  exact fold_disconnect_removes b _ st u hu m hm

/-- Witness for C8 on a concrete state: `A` and `B` are on board `"b"`,
the send to `B` fails, yet `A` still receives the frame. -/
theorem broadcast_isolates_failures_and_defers_teardown_witness :
    (broadcast stAB "b" OutMsg.pong none (fun ws => ws == 2)).2 =
      ((([("A", 1), ("B", 2)] : Dict Nat).filter (fun p => !((fun ws => ws == 2) p.2))).map
        (fun p => (Recipient.peer p.1, OutMsg.pong))) :=
  (broadcast_isolates_failures_and_defers_teardown stAB "b" OutMsg.pong none
    (fun ws => ws == 2) [("A", 1), ("B", 2)] (by decide)).1

/-! ### Claim C1 -/

/-- C1: the claim asserts that `cursor_moved` / `user_updated` broadcasts
reach all members *except* the originating connection.  In the source the
send loop ignores `exclude_user_id` (the check was commented out
"temporarily for debugging"), so the originator receives them too: with
`A` and `B` on board `"b"`, a `cursor_move` from `A` (resp. a direct
broadcast excluding `A`) is delivered to both `A` and `B`. -/
theorem broadcast_delivers_to_excluded_originator :
    (handleEvent stAB ⟨some "A", some "Alice"⟩ "b" cursorEvt envNF).map
        (fun r => r.2.2.map Prod.fst)
      = .ok [Recipient.peer "A", Recipient.peer "B"] ∧
    (broadcast stAB "b" OutMsg.pong (some "A") (fun _ => false)).2.map Prod.fst
      = [Recipient.peer "A", Recipient.peer "B"] := by
  constructor
  · decide
  · decide

/-! ### Claim C3 -/

/-- C3: the claim asserts a malformed event (missing required field) does
not crash the `Active` loop.  In the source `data["object"]` /
`data["position"]` raise `KeyError`, which only the outer handler catches:
the loop exits and the remaining events are never processed, for every
manager state and environment. -/
theorem malformed_event_terminates_loop (st : ManagerState) (loc : SessionLocals)
    (b : String) (env : EventEnv) (rest : List InEvent) :
    runLoop b env st loc (mkEvent "add_object" :: rest) = (st, loc, true) ∧
    runLoop b env st loc (mkEvent "modify_object" :: rest) = (st, loc, true) ∧
    runLoop b env st loc ({ mkEvent "cursor_move" with position := none } :: rest)
      = (st, loc, true) := by
  refine ⟨rfl, rfl, rfl⟩

/-! ### Claim C9 -/

/-- C9: if the first inbound message is not a `user_join`, the connection
is dropped without any processing: the manager state is unchanged (no
identity allocated, no board created or mutated), no session is
established, and no frame (snapshot or broadcast) is sent. -/
theorem non_join_first_message_is_noop (st : ManagerState) (ws : Nat) (b : String)
    (d : InEvent) (jenv : JoinEnv) (fails : Nat → Bool) (h : d.type ≠ "user_join") :
    firstMessage st ws b d jenv fails = (st, none, []) := by
  unfold firstMessage
  rw [if_neg (by simpa using h)]

/-- Witness for C9: a `cursor_move` as first message on a fresh server. -/
theorem non_join_first_message_is_noop_witness :
    firstMessage initialManager 1 "b" (mkEvent "cursor_move") jenvA (fun _ => false)
      = (initialManager, none, []) :=
  non_join_first_message_is_noop initialManager 1 "b" (mkEvent "cursor_move") jenvA
    (fun _ => false) (by decide)

/-! ### Claim C2 -/

theorem foldl_replicate_eq_iterate {σ τ : Type} (f : σ → τ → σ) (x : τ) :
    ∀ (n : Nat) (s : σ), (List.replicate n x).foldl f s = (fun s => f s x)^[n] s := by
  intro n
  induction n with
  | zero => intro s; rfl
  | succ k ih =>
    intro s
    rw [List.replicate_succ, List.foldl_cons, Function.iterate_succ_apply]
    exact ih (f s x)

/-- One `add_object` event through the websocket handler appends to the
board's log with no truncation. -/
theorem applyOp_addOp_board (st : ManagerState) (bd : BoardData)
    (h : lookupD st.board_data "b" = some bd) :
    (applyOp st addOp).board_data = insertD st.board_data "b" { bd with objects := bd.objects ++ [⟨some "obj-1", some "t2", 0⟩] } := by
  have key : handleEvent st ⟨some "A", some "Alice"⟩ "b" addEvt envNF = .ok ((broadcast { st with board_data := insertD st.board_data "b" { bd with objects := bd.objects ++ [⟨some "obj-1", some "t2", 0⟩] } } "b" (.object_added ⟨some "obj-1", some "t2", 0⟩) none envNF.fails).1, ⟨some "A", some "Alice"⟩, (broadcast { st with board_data := insertD st.board_data "b" { bd with objects := bd.objects ++ [⟨some "obj-1", some "t2", 0⟩] } } "b" (.object_added ⟨some "obj-1", some "t2", 0⟩) none envNF.fails).2) := by
    simp [handleEvent, addEvt, mkEvent, envNF, falsyS, h]
  show (match handleEvent st ⟨some "A", some "Alice"⟩ "b" addEvt envNF with
    | .ok r => r.1
    | .error _ => st).board_data = _
  rw [key]
  have hb : envNF.fails = (fun _ => false) := rfl
  rw [hb, broadcast_fst_const_false]

theorem addOp_iter_length (n : Nat) : ∀ (st : ManagerState) (bd : BoardData),
    lookupD st.board_data "b" = some bd →
    (lookupD ((fun s => applyOp s addOp)^[n] st).board_data "b").map
        (fun x => x.objects.length) = some (bd.objects.length + n) := by
  induction n with
  | zero =>
    intro st bd h
    simp [h]
  | succ k ih =>
    intro st bd h
    rw [Function.iterate_succ_apply]
    have h1 : lookupD (applyOp st addOp).board_data "b" = some { bd with objects := bd.objects ++ [⟨some "obj-1", some "t2", 0⟩] } := by
      rw [applyOp_addOp_board st bd h, lookupD_insertD_self]
    have := ih (applyOp st addOp) _ h1
    rw [this]
    simp
    omega

/-- One application of the (uncalled) capped manager method. -/
theorem managerAddStep_board (st : ManagerState) (bd : BoardData)
    (h : lookupD st.board_data "b" = some bd) :
    (managerAddStep st).board_data = insertD st.board_data "b" { bd with objects := if (bd.objects ++ [(⟨some "obj-m", some "tm", 0⟩ : Obj)]).length > 1000 then (bd.objects ++ [(⟨some "obj-m", some "tm", 0⟩ : Obj)]).drop ((bd.objects ++ [(⟨some "obj-m", some "tm", 0⟩ : Obj)]).length - 1000) else bd.objects ++ [(⟨some "obj-m", some "tm", 0⟩ : Obj)] } := by
  show (manager_add_object st "b" ⟨none, none, 0⟩ "obj-m" "tm").board_data = _
  simp [manager_add_object, h]

theorem managerAdd_iter_length (n : Nat) : ∀ (st : ManagerState) (bd : BoardData),
    lookupD st.board_data "b" = some bd → bd.objects.length ≤ 1000 →
    (lookupD (managerAddStep^[n] st).board_data "b").map
        (fun x => x.objects.length) = some (min (bd.objects.length + n) 1000) := by
  induction n with
  | zero =>
    intro st bd h hle
    simp [h]
    omega
  | succ k ih =>
    intro st bd h hle
    rw [Function.iterate_succ_apply]
    obtain ⟨bd1, hb1, hlen1⟩ : ∃ bd1, lookupD (managerAddStep st).board_data "b" = some bd1 ∧ bd1.objects.length = min (bd.objects.length + 1) 1000 := by
      refine ⟨_, by rw [managerAddStep_board st bd h, lookupD_insertD_self], ?_⟩
      dsimp only
      by_cases hgt : (bd.objects ++ [(⟨some "obj-m", some "tm", 0⟩ : Obj)]).length > 1000
      · rw [if_pos hgt, List.length_drop]
        simp only [List.length_append, List.length_cons, List.length_nil] at hgt ⊢
        omega
      · rw [if_neg hgt]
        simp only [List.length_append, List.length_cons, List.length_nil] at hgt ⊢
        omega
    have hrec := ih (managerAddStep st) bd1 hb1
      (le_trans (le_of_eq hlen1) (Nat.min_le_right _ _))
    rw [hrec, hlen1]
    congr 1
    omega

set_option maxRecDepth 10000 in
/-- C2: the claim asserts the object log is capped at 1000 entries, with
1001 sequential `add_object` events leaving the most recent 1000.  The
websocket handler appends inline and never truncates, so 1001 events leave
1001 objects; the capped `ConnectionManager.add_object` method (which would
leave exactly 1000) exists but is never called by the handler. -/
theorem add_object_log_exceeds_cap :
    (lookupD (runOps (joinA :: List.replicate 1001 addOp)).board_data "b").map
        (fun bd => bd.objects.length) = some 1001 ∧
    (lookupD (managerAddStep^[1001] (runOps [joinA])).board_data "b").map
        (fun bd => bd.objects.length) = some 1000 := by
  have hrun : runOps (joinA :: List.replicate 1001 addOp) =
      (fun s => applyOp s addOp)^[1001] (runOps [joinA]) := by
    unfold runOps
    rw [List.foldl_cons, List.foldl_cons, List.foldl_nil,
      foldl_replicate_eq_iterate applyOp addOp 1001 (applyOp initialManager joinA)]
  have hbase : lookupD (runOps [joinA]).board_data "b" =
      some ⟨[], "#FFFFFF", [⟨"A", some "Alice", "#FF6B6B", "t0"⟩]⟩ := by decide
  constructor
  · rw [hrun]
    rw [addOp_iter_length 1001 (runOps [joinA]) _ hbase]
    norm_num
  · rw [managerAdd_iter_length 1001 (runOps [joinA]) _ hbase (by norm_num)]
    norm_num

/-! ### Claim C4 -/

theorem replaceFirst_of_no_match (l : List Obj) (oid : Option String) (x : Obj)
    (h : ∀ o ∈ l, ¬ o.id = oid) : replaceFirst l oid x = l := by
  induction l with
  | nil => rfl
  | cons o rest ih =>
    have : (o.id == oid) = false := by simp [h o (by simp)]
    rw [replaceFirst, if_neg (by simp [this])]
    rw [ih (fun o' ho' => h o' (by simp [ho']))]

theorem replaceFirst_decomp (l r : List Obj) (o : Obj) (oid : Option String) (x : Obj)
    (hl : ∀ o' ∈ l, ¬ o'.id = oid) (ho : o.id = oid) :
    replaceFirst (l ++ o :: r) oid x = l ++ x :: r := by
  induction l with
  | nil =>
    simp only [List.nil_append]
    rw [replaceFirst, if_pos (by simp [ho])]
  | cons o' rest ih =>
    have : (o'.id == oid) = false := by simp [hl o' (by simp)]
    rw [List.cons_append, replaceFirst, if_neg (by simp [this])]
    rw [ih (fun x hx => hl x (by simp [hx]))]
    rfl

/-- C4: a `modify_object` event whose resolved target id matches nothing
leaves the board's log (and the rest of the state) unchanged, yet exactly
one `object_modified` broadcast carrying the event's object data is still
delivered to every connected member; when the target does match, the first
matching object is replaced in place at its original position. -/
theorem modify_object_unknown_id_keeps_log_and_broadcasts
    (st : ManagerState) (loc : SessionLocals) (b : String) (env : EventEnv)
    (d : InEvent) (obj0 : Obj) (bd : BoardData) (conns : Dict Nat)
    (oid : Option String) (obj1 : Obj)
    (htype : d.type = "modify_object") (hobj : d.object = some obj0)
    (hbd : lookupD st.board_data b = some bd)
    (hconns : lookupD st.active_connections b = some conns)
    (hnofail : ∀ p ∈ conns, env.fails p.2 = false)
    (hoid : oid = orFalsy d.object_id obj0.id)
    (hobj1 : obj1 = if obj0.id == none && !(falsyS oid) then { obj0 with id := oid } else obj0) :
    ∃ st1,
      handleEvent st loc b d env =
        .ok (st1, loc, conns.map (fun p => (Recipient.peer p.1, OutMsg.object_modified obj1 oid))) ∧
      ((∀ o ∈ bd.objects, ¬ o.id = oid) →
        lookupD st1.board_data b = some bd ∧
        st1.active_connections = st.active_connections ∧ st1.user_info = st.user_info) ∧
      (∀ l r o, bd.objects = l ++ o :: r → o.id = oid → (∀ o' ∈ l, ¬ o'.id = oid) →
        lookupD st1.board_data b = some { bd with objects := l ++ obj1 :: r }) := by
  refine ⟨{ st with board_data := insertD st.board_data b { bd with objects := replaceFirst bd.objects oid obj1 } }, ?_, ?_, ?_⟩
  · unfold handleEvent
    rw [if_neg (by rw [htype]; decide), if_neg (by rw [htype]; decide),
      if_pos (by rw [htype]; decide), hobj]
    dsimp only
    rw [← hoid, ← hobj1, hbd]
    dsimp only
    rw [broadcast_nofail { st with board_data := insertD st.board_data b { bd with objects := replaceFirst bd.objects oid obj1 } } b (OutMsg.object_modified obj1 oid) none env.fails conns hconns hnofail]
  · intro hno
    refine ⟨?_, rfl, rfl⟩
    dsimp only
    rw [lookupD_insertD_self, replaceFirst_of_no_match bd.objects oid obj1 hno]
  · intro l r o hsplit ho hl
    dsimp only
    rw [lookupD_insertD_self, hsplit, replaceFirst_decomp l r o oid obj1 hl ho]

/-- Witness for C4: on a two-user board whose log is empty, modifying the
unknown id `"zzz"` leaves the log empty but still broadcasts
`object_modified` to both members. -/
theorem modify_object_unknown_id_keeps_log_and_broadcasts_witness :
    ∃ st1,
      handleEvent stAB ⟨some "A", some "Alice"⟩ "b"
          { mkEvent "modify_object" with object := some ⟨some "zzz", none, 5⟩ } envNF =
        .ok (st1, ⟨some "A", some "Alice"⟩,
          (([("A", 1), ("B", 2)] : Dict Nat).map
            (fun p => (Recipient.peer p.1, OutMsg.object_modified ⟨some "zzz", none, 5⟩ (some "zzz"))))) ∧
      lookupD st1.board_data "b" = some ⟨[], "#FFFFFF", [⟨"A", some "Alice", "#FF6B6B", "t0"⟩, ⟨"B", some "Bob", "#4ECDC4", "t1"⟩]⟩ := by
  obtain ⟨st1, h1, h2, h3⟩ :=
    modify_object_unknown_id_keeps_log_and_broadcasts stAB ⟨some "A", some "Alice"⟩ "b" envNF
      { mkEvent "modify_object" with object := some ⟨some "zzz", none, 5⟩ }
      ⟨some "zzz", none, 5⟩
      ⟨[], "#FFFFFF", [⟨"A", some "Alice", "#FF6B6B", "t0"⟩, ⟨"B", some "Bob", "#4ECDC4", "t1"⟩]⟩
      [("A", 1), ("B", 2)] (some "zzz") ⟨some "zzz", none, 5⟩
      rfl rfl (by decide) (by decide) (by decide) (by decide) (by decide)
  exact ⟨st1, h1, (h2 (by decide)).1⟩

/-! ### Claim C10 -/

theorem updateFirstName_map_id (l : List RosterEntry) (uid : Option String)
    (nm : Option String) :
    (updateFirstName l uid nm).map RosterEntry.id = l.map RosterEntry.id := by
  induction l with
  | nil => rfl
  | cons u rest ih =>
    rw [updateFirstName]
    by_cases h : (some u.id == uid) = true
    · rw [if_pos h]
      rfl
    · rw [if_neg h, List.map_cons, List.map_cons, ih]

theorem lookupD_some_isEmpty_false {α : Type} (m : Dict α) (k : String) (v : α)
    (h : lookupD m k = some v) : m.isEmpty = false := by
  cases m with
  | nil => simp [lookupD] at h
  | cons p rest => rfl

theorem roster_filter_keeps (l : List RosterEntry) (r u : String)
    (hr : r ∈ l.map RosterEntry.id) (hne : r ≠ u) :
    r ∈ (l.filter (fun x => x.id != u)).map RosterEntry.id := by
  obtain ⟨e, he, hid⟩ := List.mem_map.mp hr
  refine List.mem_map.mpr ⟨e, ?_, hid⟩
  refine List.mem_filter.mpr ⟨he, ?_⟩
  simp [hid, hne]

/-- Shape of the `update_user` branch: active connections are untouched,
the roster names are rewritten via `updateFirstName`, the user-info map
becomes some `ui2`, the locals' `user_id` is rebound to the event's
`userId`, and the broadcast runs over the updated state. -/
theorem handleEvent_update_shape (st : ManagerState) (loc : SessionLocals) (b : String)
    (d : InEvent) (env : EventEnv) (bd : BoardData)
    (htype : d.type = "update_user") (hbd : lookupD st.board_data b = some bd) :
    ∃ ui2,
      handleEvent st loc b d env =
        .ok ((broadcast ⟨st.active_connections, insertD st.board_data b { bd with users := updateFirstName bd.users d.userId d.newName }, ui2⟩ b (.user_updated d.userId d.oldName d.newName) d.userId env.fails).1,
          { loc with user_id := d.userId },
          (broadcast ⟨st.active_connections, insertD st.board_data b { bd with users := updateFirstName bd.users d.userId d.newName }, ui2⟩ b (.user_updated d.userId d.oldName d.newName) d.userId env.fails).2) := by
  unfold handleEvent
  rw [if_neg (by rw [htype]; decide), if_pos (by rw [htype]; decide)]
  cases hui : lookupD st.user_info b with
  | none =>
    refine ⟨st.user_info, ?_⟩
    simp only [hui, hbd]
  | some infos =>
    cases hbind : d.userId.bind (fun u => (lookupD infos u).map (fun i => (u, i))) with
    | none =>
      refine ⟨st.user_info, ?_⟩
      simp only [hui, hbind, hbd]
    | some pr =>
      obtain ⟨u, info⟩ := pr
      refine ⟨insertD st.user_info b (insertD infos u { info with name := d.newName }), ?_⟩
      simp only [hui, hbind, hbd]

theorem broadcast_fst_nofail_all (st : ManagerState) (b : String) (msg : OutMsg)
    (ex : Option String) (fails : Nat → Bool) (h : ∀ n, fails n = false) :
    (broadcast st b msg ex fails).1 = st := by
  cases hc : lookupD st.active_connections b with
  | none => rw [broadcast_absent st b msg ex fails hc]
  | some conns => rw [broadcast_nofail st b msg ex fails conns hc (fun p _ => h p.2)]

/-- C10: handling `update_user` rebinds the handler-local `user_id` to the
event's `userId` field; if that field is absent or names a different id
than the one registered at join time, the subsequent teardown (which keys
off the rebound local and is skipped when it is falsy) leaves the original
registration in both the connection map and the roster. -/
theorem update_user_rebinds_session_id
    (st : ManagerState) (b r : String) (d : InEvent) (env : EventEnv)
    (loc : SessionLocals) (conns : Dict Nat) (ws : Nat) (bd : BoardData)
    (htype : d.type = "update_user")
    (hne : d.userId = none ∨ d.userId ≠ some r)
    (hconns : lookupD st.active_connections b = some conns)
    (hws : lookupD conns r = some ws)
    (hbd : lookupD st.board_data b = some bd)
    (hr : r ∈ bd.users.map RosterEntry.id)
    (hnofail : ∀ n, env.fails n = false) :
    ∃ st1 sends,
      handleEvent st loc b d env = .ok (st1, { loc with user_id := d.userId }, sends) ∧
      ∃ conns2 bd2,
        lookupD (teardown st1 b { loc with user_id := d.userId } env.fails).1.active_connections b
          = some conns2 ∧
        lookupD conns2 r = some ws ∧
        lookupD (teardown st1 b { loc with user_id := d.userId } env.fails).1.board_data b
          = some bd2 ∧
        r ∈ bd2.users.map RosterEntry.id := by
  obtain ⟨ui2, hev⟩ := handleEvent_update_shape st loc b d env bd htype hbd
  set bdU : BoardData := { bd with users := updateFirstName bd.users d.userId d.newName } with hbdU_def
  set stU : ManagerState := ⟨st.active_connections, insertD st.board_data b bdU, ui2⟩ with hstU_def
  have hcU : lookupD stU.active_connections b = some conns := hconns
  have hbdU : lookupD stU.board_data b = some bdU := lookupD_insertD_self st.board_data b bdU
  have hbn := broadcast_nofail stU b (.user_updated d.userId d.oldName d.newName) d.userId
    env.fails conns hcU (fun p _ => hnofail p.2)
  rw [hbn] at hev
  refine ⟨stU, _, hev, ?_⟩
  have hmemU : r ∈ bdU.users.map RosterEntry.id := by
    rw [hbdU_def]
    dsimp only
    rw [updateFirstName_map_id]
    exact hr
  by_cases hf : falsyS d.userId = true
  · have h1 : teardown stU b { loc with user_id := d.userId } env.fails = (stU, []) := by
      unfold teardown
      dsimp only
      rw [if_pos hf]
    rw [h1]
    exact ⟨conns, bdU, hcU, hws, hbdU, hmemU⟩
  · obtain ⟨u, hu⟩ : ∃ u, d.userId = some u := by
      cases hx : d.userId with
      | none => rw [hx] at hf; simp [falsyS] at hf
      | some y => exact ⟨y, rfl⟩
    have hur : u ≠ r := by
      rcases hne with h0 | h0
      · rw [hu] at h0
        exact Option.noConfusion h0
      · intro he
        exact h0 (by rw [hu, he])
    have hr1 : lookupD (eraseD conns u) r = some ws := by
      rw [lookupD_eraseD_ne conns u r hur]
      exact hws
    have hempF : (eraseD conns u).isEmpty = false :=
      lookupD_some_isEmpty_false (eraseD conns u) r ws hr1
    have h1 : (teardown stU b { loc with user_id := d.userId } env.fails).1
        = (disconnect stU b u).1 := by
      unfold teardown
      dsimp only
      rw [if_neg hf, hu]
      dsimp only [Option.getD]
      exact broadcast_fst_nofail_all _ b _ none env.fails hnofail
    rw [h1]
    cases hui2 : lookupD stU.user_info b with
    | none =>
      rw [disconnect_noinfo stU b u conns hcU hui2]
      exact ⟨eraseD conns u, bdU, lookupD_insertD_self _ b _, hr1, hbdU, hmemU⟩
    | some infos2 =>
      cases hli2 : lookupD infos2 u with
      | none =>
        rw [disconnect_nouser stU b u conns infos2 hcU hui2 hli2]
        exact ⟨eraseD conns u, bdU, lookupD_insertD_self _ b _, hr1, hbdU, hmemU⟩
      | some info2 =>
        rw [disconnect_full_keep stU b u conns infos2 info2 bdU hcU hui2 hli2 hbdU hempF]
        refine ⟨eraseD conns u, { bdU with users := bdU.users.filter (fun x => x.id != u) },
          lookupD_insertD_self _ b _, hr1, lookupD_insertD_self _ b _, ?_⟩
        dsimp only
        exact roster_filter_keeps bdU.users r u hmemU (fun he => hur he.symm)

/-- Witness for C10: `A` is registered on board `"b"`; an `update_user`
without a `userId` rebinds the local to `None`, and the teardown then
leaves `A` in the connection map and roster. -/
theorem update_user_rebinds_session_id_witness :
    ∃ st1 sends,
      handleEvent stAB ⟨some "A", some "Alice"⟩ "b"
          { mkEvent "update_user" with newName := some "X" } envNF
        = .ok (st1, ⟨none, some "Alice"⟩, sends) ∧
      ∃ conns2 bd2,
        lookupD (teardown st1 "b" ⟨none, some "Alice"⟩ envNF.fails).1.active_connections "b"
          = some conns2 ∧
        lookupD conns2 "A" = some 1 ∧
        lookupD (teardown st1 "b" ⟨none, some "Alice"⟩ envNF.fails).1.board_data "b"
          = some bd2 ∧
        "A" ∈ bd2.users.map RosterEntry.id :=
  update_user_rebinds_session_id stAB "b" "A"
    { mkEvent "update_user" with newName := some "X" } envNF
    ⟨some "A", some "Alice"⟩ [("A", 1), ("B", 2)] 1
    ⟨[], "#FFFFFF", [⟨"A", some "Alice", "#FF6B6B", "t0"⟩, ⟨"B", some "Bob", "#4ECDC4", "t1"⟩]⟩
    rfl (Or.inl rfl) (by decide) (by decide) (by decide) (by decide) (fun _ => rfl)

/-! ### The registry invariant (claims C5 and C7) -/

theorem isEmpty_false_ne_nil {α : Type} (l : List α) (h : l.isEmpty = false) : l ≠ [] := by
  cases l with
  | nil => simp at h
  | cons x xs => simp

theorem inv_initial : Inv initialManager := by
  constructor
  · rfl
  · rfl
  · exact List.nodup_nil
  · intro b conns infos hc _
    simp [initialManager, lookupD] at hc
  · intro b bd hb
    simp [initialManager, lookupD] at hb

theorem inv_set_board (st : ManagerState) (b : String) (bd bd' : BoardData)
    (hInv : Inv st) (h : lookupD st.board_data b = some bd)
    (hids : bd'.users.map RosterEntry.id = bd.users.map RosterEntry.id) :
    Inv { st with board_data := insertD st.board_data b bd' } := by
  constructor
  · show keysD st.active_connections = keysD (insertD st.board_data b bd')
    rw [keysD_insertD_present st.board_data b bd' (by simp [h])]
    exact hInv.keys_bd
  · exact hInv.keys_ui
  · exact hInv.keys_nodup
  · exact hInv.inner
  · intro b' bd'' hb''
    by_cases hbb : b = b'
    · subst hbb
      rw [show ({ st with board_data := insertD st.board_data b bd' } : ManagerState).board_data
          = insertD st.board_data b bd' from rfl, lookupD_insertD_self] at hb''
      rw [← Option.some.inj hb'', hids]
      exact hInv.roster_nodup b bd h
    · rw [show ({ st with board_data := insertD st.board_data b bd' } : ManagerState).board_data
          = insertD st.board_data b bd' from rfl, lookupD_insertD_ne _ b b' bd' hbb] at hb''
      exact hInv.roster_nodup b' bd'' hb''

theorem inv_set_user_info (st : ManagerState) (b : String) (infos infos' : Dict UserInfo)
    (hInv : Inv st) (h : lookupD st.user_info b = some infos)
    (hkeys : keysD infos' = keysD infos) :
    Inv { st with user_info := insertD st.user_info b infos' } := by
  constructor
  · exact hInv.keys_bd
  · show keysD st.active_connections = keysD (insertD st.user_info b infos')
    rw [keysD_insertD_present st.user_info b infos' (by simp [h])]
    exact hInv.keys_ui
  · exact hInv.keys_nodup
  · intro b' conns infos'' hc hi
    by_cases hbb : b = b'
    · subst hbb
      rw [show ({ st with user_info := insertD st.user_info b infos' } : ManagerState).user_info
          = insertD st.user_info b infos' from rfl, lookupD_insertD_self] at hi
      obtain ⟨k1, k2, k3⟩ := hInv.inner b conns infos hc h
      rw [← Option.some.inj hi]
      exact ⟨by rw [hkeys]; exact k1, k2, k3⟩
    · rw [show ({ st with user_info := insertD st.user_info b infos' } : ManagerState).user_info
          = insertD st.user_info b infos' from rfl, lookupD_insertD_ne _ b b' infos' hbb] at hi
      exact hInv.inner b' conns infos'' hc hi
  · exact hInv.roster_nodup

theorem inv_disconnect (st : ManagerState) (b u : String) (hInv : Inv st) :
    Inv (disconnect st b u).1 := by
  cases hc : lookupD st.active_connections b with
  | none =>
    rw [disconnect_absent st b u hc]
    exact hInv
  | some conns =>
    have huis : (lookupD st.user_info b).isSome := by
      rw [← mem_keysD_iff, ← hInv.keys_ui, mem_keysD_iff, hc]
      rfl
    obtain ⟨infos, hui⟩ := Option.isSome_iff_exists.mp huis
    have hbds : (lookupD st.board_data b).isSome := by
      rw [← mem_keysD_iff, ← hInv.keys_bd, mem_keysD_iff, hc]
      rfl
    obtain ⟨bd, hbd⟩ := Option.isSome_iff_exists.mp hbds
    obtain ⟨hkeq, hne, hnd⟩ := hInv.inner b conns infos hc hui
    cases hli : lookupD infos u with
    | none =>
      have hcu : lookupD conns u = none := by
        rw [lookupD_eq_none_iff, hkeq, ← lookupD_eq_none_iff]
        exact hli
      have heq : (disconnect st b u).1 = st := by
        rw [disconnect_nouser st b u conns infos hc hui hli]
        show ({ st with active_connections := insertD st.active_connections b (eraseD conns u) } : ManagerState) = st
        rw [eraseD_of_lookup_none conns u hcu,
          insertD_self_of_lookup st.active_connections b conns hInv.keys_nodup hc]
      rw [heq]
      exact hInv
    | some info =>
      cases hemp : (eraseD conns u).isEmpty with
      | true =>
        rw [disconnect_full_clean st b u conns infos info hc hui hli hemp]
        constructor
        · show keysD (eraseD st.active_connections b) = keysD (eraseD st.board_data b)
          rw [keysD_eraseD, keysD_eraseD, hInv.keys_bd]
        · show keysD (eraseD st.active_connections b) = keysD (eraseD st.user_info b)
          rw [keysD_eraseD, keysD_eraseD, hInv.keys_ui]
        · show (keysD (eraseD st.active_connections b)).Nodup
          rw [keysD_eraseD]
          exact hInv.keys_nodup.filter _
        · intro b' conns' infos' hc' hi'
          by_cases hbb : b = b'
          · subst hbb
            rw [show (⟨eraseD st.active_connections b, eraseD st.board_data b, eraseD st.user_info b⟩ : ManagerState).active_connections = eraseD st.active_connections b from rfl, lookupD_eraseD_self] at hc'
            exact Option.noConfusion hc'
          · rw [show (⟨eraseD st.active_connections b, eraseD st.board_data b, eraseD st.user_info b⟩ : ManagerState).active_connections = eraseD st.active_connections b from rfl, lookupD_eraseD_ne _ b b' hbb] at hc'
            rw [show (⟨eraseD st.active_connections b, eraseD st.board_data b, eraseD st.user_info b⟩ : ManagerState).user_info = eraseD st.user_info b from rfl, lookupD_eraseD_ne _ b b' hbb] at hi'
            exact hInv.inner b' conns' infos' hc' hi'
        · intro b' bd' hb'
          by_cases hbb : b = b'
          · subst hbb
            rw [show (⟨eraseD st.active_connections b, eraseD st.board_data b, eraseD st.user_info b⟩ : ManagerState).board_data = eraseD st.board_data b from rfl, lookupD_eraseD_self] at hb'
            exact Option.noConfusion hb'
          · rw [show (⟨eraseD st.active_connections b, eraseD st.board_data b, eraseD st.user_info b⟩ : ManagerState).board_data = eraseD st.board_data b from rfl, lookupD_eraseD_ne _ b b' hbb] at hb'
            exact hInv.roster_nodup b' bd' hb'
      | false =>
        rw [disconnect_full_keep st b u conns infos info bd hc hui hli hbd hemp]
        have hca : (lookupD st.active_connections b).isSome := by
          rw [hc]
          rfl
        have hba : (lookupD st.board_data b).isSome := by
          rw [hbd]
          rfl
        have hua : (lookupD st.user_info b).isSome := by
          rw [hui]
          rfl
        constructor
        · show keysD (insertD st.active_connections b (eraseD conns u))
            = keysD (insertD st.board_data b _)
          rw [keysD_insertD_present _ b _ hca, keysD_insertD_present _ b _ hba]
          exact hInv.keys_bd
        · show keysD (insertD st.active_connections b (eraseD conns u))
            = keysD (insertD st.user_info b (eraseD infos u))
          rw [keysD_insertD_present _ b _ hca, keysD_insertD_present _ b _ hua]
          exact hInv.keys_ui
        · show (keysD (insertD st.active_connections b (eraseD conns u))).Nodup
          rw [keysD_insertD_present _ b _ hca]
          exact hInv.keys_nodup
        · intro b' conns' infos' hc' hi'
          by_cases hbb : b = b'
          · subst hbb
            rw [show (⟨insertD st.active_connections b (eraseD conns u), _, insertD st.user_info b (eraseD infos u)⟩ : ManagerState).active_connections = insertD st.active_connections b (eraseD conns u) from rfl, lookupD_insertD_self] at hc'
            rw [show (⟨insertD st.active_connections b (eraseD conns u), _, insertD st.user_info b (eraseD infos u)⟩ : ManagerState).user_info = insertD st.user_info b (eraseD infos u) from rfl, lookupD_insertD_self] at hi'
            rw [← Option.some.inj hc', ← Option.some.inj hi']
            refine ⟨by rw [keysD_eraseD, keysD_eraseD, hkeq], isEmpty_false_ne_nil _ hemp, ?_⟩
            rw [keysD_eraseD]
            exact hnd.filter _
          · rw [show (⟨insertD st.active_connections b (eraseD conns u), _, insertD st.user_info b (eraseD infos u)⟩ : ManagerState).active_connections = insertD st.active_connections b (eraseD conns u) from rfl, lookupD_insertD_ne _ b b' _ hbb] at hc'
            rw [show (⟨insertD st.active_connections b (eraseD conns u), _, insertD st.user_info b (eraseD infos u)⟩ : ManagerState).user_info = insertD st.user_info b (eraseD infos u) from rfl, lookupD_insertD_ne _ b b' _ hbb] at hi'
            exact hInv.inner b' conns' infos' hc' hi'
        · intro b' bd' hb'
          by_cases hbb : b = b'
          · subst hbb
            rw [show (⟨_, insertD st.board_data b { bd with users := bd.users.filter (fun x => x.id != u) }, _⟩ : ManagerState).board_data = insertD st.board_data b { bd with users := bd.users.filter (fun x => x.id != u) } from rfl, lookupD_insertD_self] at hb'
            rw [← Option.some.inj hb']
            have hsub : ((bd.users.filter (fun x => x.id != u)).map RosterEntry.id).Sublist
                (bd.users.map RosterEntry.id) :=
              (List.filter_sublist bd.users).map RosterEntry.id
            exact (hInv.roster_nodup b bd hbd).sublist hsub
          · rw [show (⟨_, insertD st.board_data b { bd with users := bd.users.filter (fun x => x.id != u) }, _⟩ : ManagerState).board_data = insertD st.board_data b { bd with users := bd.users.filter (fun x => x.id != u) } from rfl, lookupD_insertD_ne _ b b' _ hbb] at hb'
            exact hInv.roster_nodup b' bd' hb'

theorem insertD_insertD {α : Type} (m : Dict α) (k : String) (v w : α) :
    insertD (insertD m k v) k w = insertD m k w := by
  induction m with
  | nil =>
    show insertD [(k, v)] k w = [(k, w)]
    rw [insertD_cons, if_pos rfl]
    rfl
  | cons p rest ih =>
    rw [show (p :: rest : Dict α) = (p.1, p.2) :: rest from rfl, insertD_cons]
    by_cases hp : p.1 = k
    · rw [if_pos hp, insertD_cons, if_pos rfl, insertD_cons, if_pos hp]
      congr 1
      rw [List.map_map]
      apply List.map_congr_left
      intro q _
      by_cases hq : q.1 = k
      · simp [hq]
      · simp [hq]
    · rw [if_neg hp, insertD_cons, if_neg hp, insertD_cons, if_neg hp, ih]

theorem insertD_nil {α : Type} (k : String) (v : α) : insertD ([] : Dict α) k v = [(k, v)] := rfl

/-- `register_user` on an absent board id: every registry gains the board,
initialized with exactly the joining user. -/
theorem register_fresh_shape (st : ManagerState) (ws : Nat) (b : String) (jd : JoinData)
    (env : JoinEnv) (hc : lookupD st.active_connections b = none) :
    (register_user st ws b jd env).1 =
      ⟨insertD st.active_connections b [(regUid jd env, ws)],
       insertD st.board_data b ⟨[], "#FFFFFF", [⟨regUid jd env, regName jd env, assignColor [], env.now⟩]⟩,
       insertD st.user_info b [(regUid jd env, ⟨regUid jd env, regName jd env, assignColor [], regSid jd env, env.now, none⟩)]⟩ := by
  cases hfu : falsyS jd.userId with
  | true =>
    simp [register_user, regUid, regName, regSid, hfu, hc, lookupD_insertD_self,
      insertD_insertD, insertD_nil]
  | false =>
    simp [register_user, regUid, regName, regSid, hfu, hc, lookupD_insertD_self,
      insertD_insertD, insertD_nil]

/-- `register_user` on an existing board id when the joining id is already
in the roster: maps are updated, the roster is left alone. -/
theorem register_existing_found (st : ManagerState) (ws : Nat) (b : String) (jd : JoinData)
    (env : JoinEnv) (conns : Dict Nat) (infos : Dict UserInfo) (bd : BoardData)
    (hc : lookupD st.active_connections b = some conns)
    (hui : lookupD st.user_info b = some infos)
    (hbd : lookupD st.board_data b = some bd)
    (hfind : (bd.users.find? (fun x => x.id == regUid jd env)).isSome = true) :
    (register_user st ws b jd env).1 =
      ⟨insertD st.active_connections b (insertD conns (regUid jd env) ws),
       st.board_data,
       insertD st.user_info b (insertD infos (regUid jd env) ⟨regUid jd env, regName jd env, assignColor infos, regSid jd env, env.now, none⟩)⟩ := by
  cases hfu : falsyS jd.userId with
  | true =>
    simp only [regUid, hfu, if_true] at hfind
    simp [register_user, regUid, regName, regSid, hfu, hc, hui, hbd, hfind]
  | false =>
    simp only [regUid, hfu, Bool.false_eq_true, if_false] at hfind
    simp [register_user, regUid, regName, regSid, hfu, hc, hui, hbd, hfind]

/-- `register_user` on an existing board id when the joining id is not yet
in the roster: maps are updated and the roster gains exactly one entry. -/
theorem register_existing_notfound (st : ManagerState) (ws : Nat) (b : String) (jd : JoinData)
    (env : JoinEnv) (conns : Dict Nat) (infos : Dict UserInfo) (bd : BoardData)
    (hc : lookupD st.active_connections b = some conns)
    (hui : lookupD st.user_info b = some infos)
    (hbd : lookupD st.board_data b = some bd)
    (hfind : (bd.users.find? (fun x => x.id == regUid jd env)).isSome = false) :
    (register_user st ws b jd env).1 =
      ⟨insertD st.active_connections b (insertD conns (regUid jd env) ws),
       insertD st.board_data b { bd with users := bd.users ++ [⟨regUid jd env, regName jd env, assignColor infos, env.now⟩] },
       insertD st.user_info b (insertD infos (regUid jd env) ⟨regUid jd env, regName jd env, assignColor infos, regSid jd env, env.now, none⟩)⟩ := by
  cases hfu : falsyS jd.userId with
  | true =>
    simp only [regUid, hfu, if_true] at hfind
    simp [register_user, regUid, regName, regSid, hfu, hc, hui, hbd, hfind]
  | false =>
    simp only [regUid, hfu, Bool.false_eq_true, if_false] at hfind
    simp [register_user, regUid, regName, regSid, hfu, hc, hui, hbd, hfind]

theorem nodup_append_singleton {α : Type} (l : List α) (a : α)
    (hnd : l.Nodup) (ha : a ∉ l) : (l ++ [a]).Nodup := by
  rw [List.nodup_append]
  refine ⟨hnd, by simp, ?_⟩
  intro x hx hxa
  rw [List.mem_singleton] at hxa
  exact ha (hxa ▸ hx)

theorem inv_register (st : ManagerState) (ws : Nat) (b : String) (jd : JoinData)
    (env : JoinEnv) (hInv : Inv st) : Inv (register_user st ws b jd env).1 := by
  cases hc : lookupD st.active_connections b with
  | none =>
    have hbd0 : lookupD st.board_data b = none := by
      rw [lookupD_eq_none_iff] at hc ⊢
      rw [← hInv.keys_bd]
      exact hc
    have hui0 : lookupD st.user_info b = none := by
      rw [lookupD_eq_none_iff] at hc ⊢
      rw [← hInv.keys_ui]
      exact hc
    rw [register_fresh_shape st ws b jd env hc]
    constructor
    · show keysD (insertD st.active_connections b _) = keysD (insertD st.board_data b _)
      rw [keysD_insertD_absent _ _ _ hc, keysD_insertD_absent _ _ _ hbd0, hInv.keys_bd]
    · show keysD (insertD st.active_connections b _) = keysD (insertD st.user_info b _)
      rw [keysD_insertD_absent _ _ _ hc, keysD_insertD_absent _ _ _ hui0, hInv.keys_ui]
    · exact keysD_nodup_insertD st.active_connections b _ hInv.keys_nodup
    · intro b' conns' infos' hc' hi'
      by_cases hbb : b = b'
      · subst hbb
        rw [show (⟨insertD st.active_connections b [(regUid jd env, ws)], _, _⟩ : ManagerState).active_connections = insertD st.active_connections b [(regUid jd env, ws)] from rfl, lookupD_insertD_self] at hc'
        rw [show (⟨_, _, insertD st.user_info b [(regUid jd env, ⟨regUid jd env, regName jd env, assignColor [], regSid jd env, env.now, none⟩)]⟩ : ManagerState).user_info = insertD st.user_info b [(regUid jd env, ⟨regUid jd env, regName jd env, assignColor [], regSid jd env, env.now, none⟩)] from rfl, lookupD_insertD_self] at hi'
        rw [← Option.some.inj hc', ← Option.some.inj hi']
        exact ⟨rfl, by simp, by simp [keysD]⟩
      · rw [show (⟨insertD st.active_connections b [(regUid jd env, ws)], _, _⟩ : ManagerState).active_connections = insertD st.active_connections b [(regUid jd env, ws)] from rfl, lookupD_insertD_ne _ b b' _ hbb] at hc'
        rw [show (⟨_, _, insertD st.user_info b [(regUid jd env, ⟨regUid jd env, regName jd env, assignColor [], regSid jd env, env.now, none⟩)]⟩ : ManagerState).user_info = insertD st.user_info b [(regUid jd env, ⟨regUid jd env, regName jd env, assignColor [], regSid jd env, env.now, none⟩)] from rfl, lookupD_insertD_ne _ b b' _ hbb] at hi'
        exact hInv.inner b' conns' infos' hc' hi'
    · intro b' bd' hb'
      by_cases hbb : b = b'
      · subst hbb
        rw [show (⟨_, insertD st.board_data b ⟨[], "#FFFFFF", [⟨regUid jd env, regName jd env, assignColor [], env.now⟩]⟩, _⟩ : ManagerState).board_data = insertD st.board_data b ⟨[], "#FFFFFF", [⟨regUid jd env, regName jd env, assignColor [], env.now⟩]⟩ from rfl, lookupD_insertD_self] at hb'
        rw [← Option.some.inj hb']
        simp
      · rw [show (⟨_, insertD st.board_data b ⟨[], "#FFFFFF", [⟨regUid jd env, regName jd env, assignColor [], env.now⟩]⟩, _⟩ : ManagerState).board_data = insertD st.board_data b ⟨[], "#FFFFFF", [⟨regUid jd env, regName jd env, assignColor [], env.now⟩]⟩ from rfl, lookupD_insertD_ne _ b b' _ hbb] at hb'
        exact hInv.roster_nodup b' bd' hb'
  | some conns =>
    have huis : (lookupD st.user_info b).isSome := by
      rw [← mem_keysD_iff, ← hInv.keys_ui, mem_keysD_iff, hc]
      rfl
    obtain ⟨infos, hui⟩ := Option.isSome_iff_exists.mp huis
    have hbds : (lookupD st.board_data b).isSome := by
      rw [← mem_keysD_iff, ← hInv.keys_bd, mem_keysD_iff, hc]
      rfl
    obtain ⟨bd, hbd⟩ := Option.isSome_iff_exists.mp hbds
    obtain ⟨hkeq, hne0, hnd0⟩ := hInv.inner b conns infos hc hui
    have hca : (lookupD st.active_connections b).isSome := by
      rw [hc]
      rfl
    have hua : (lookupD st.user_info b).isSome := huis
    have hinner : ∀ b' conns' infos',
        lookupD (insertD st.active_connections b (insertD conns (regUid jd env) ws)) b' = some conns' →
        lookupD (insertD st.user_info b (insertD infos (regUid jd env) ⟨regUid jd env, regName jd env, assignColor infos, regSid jd env, env.now, none⟩)) b' = some infos' →
        keysD conns' = keysD infos' ∧ conns' ≠ [] ∧ (keysD conns').Nodup := by
      intro b' conns' infos' hc' hi'
      by_cases hbb : b = b'
      · subst hbb
        rw [lookupD_insertD_self] at hc' hi'
        rw [← Option.some.inj hc', ← Option.some.inj hi']
        refine ⟨?_, insertD_ne_nil _ _ _, keysD_nodup_insertD _ _ _ hnd0⟩
        cases hcu : lookupD conns (regUid jd env) with
        | none =>
          have hiu : lookupD infos (regUid jd env) = none := by
            rw [lookupD_eq_none_iff, ← hkeq, ← lookupD_eq_none_iff]
            exact hcu
          rw [keysD_insertD_absent _ _ _ hcu, keysD_insertD_absent _ _ _ hiu, hkeq]
        | some w =>
          have hiu : (lookupD infos (regUid jd env)).isSome := by
            rw [← mem_keysD_iff, ← hkeq, mem_keysD_iff, hcu]
            rfl
          rw [keysD_insertD_present _ _ _ (by rw [hcu]; rfl), keysD_insertD_present _ _ _ hiu, hkeq]
      · rw [lookupD_insertD_ne _ b b' _ hbb] at hc' hi'
        exact hInv.inner b' conns' infos' hc' hi'
    have hkeys_active : keysD (insertD st.active_connections b (insertD conns (regUid jd env) ws)) = keysD st.active_connections :=
      keysD_insertD_present _ _ _ hca
    have hkeys_ui2 : keysD (insertD st.user_info b (insertD infos (regUid jd env) ⟨regUid jd env, regName jd env, assignColor infos, regSid jd env, env.now, none⟩)) = keysD st.user_info :=
      keysD_insertD_present _ _ _ hua
    by_cases hfind : (bd.users.find? (fun x => x.id == regUid jd env)).isSome
    · rw [register_existing_found st ws b jd env conns infos bd hc hui hbd hfind]
      constructor
      · show keysD (insertD st.active_connections b (insertD conns (regUid jd env) ws)) = keysD st.board_data
        rw [hkeys_active, hInv.keys_bd]
      · show keysD (insertD st.active_connections b (insertD conns (regUid jd env) ws)) = keysD (insertD st.user_info b _)
        rw [hkeys_active, hkeys_ui2, hInv.keys_ui]
      · show (keysD (insertD st.active_connections b (insertD conns (regUid jd env) ws))).Nodup
        rw [hkeys_active]
        exact hInv.keys_nodup
      · exact hinner
      · exact hInv.roster_nodup
    · have hfind' : (bd.users.find? (fun x => x.id == regUid jd env)).isSome = false := by
        simpa using hfind
      rw [register_existing_notfound st ws b jd env conns infos bd hc hui hbd hfind']
      have hba : (lookupD st.board_data b).isSome := by
        rw [hbd]
        rfl
      constructor
      · show keysD (insertD st.active_connections b (insertD conns (regUid jd env) ws)) = keysD (insertD st.board_data b _)
        rw [hkeys_active, keysD_insertD_present _ _ _ hba, hInv.keys_bd]
      · show keysD (insertD st.active_connections b (insertD conns (regUid jd env) ws)) = keysD (insertD st.user_info b _)
        rw [hkeys_active, hkeys_ui2, hInv.keys_ui]
      · show (keysD (insertD st.active_connections b (insertD conns (regUid jd env) ws))).Nodup
        rw [hkeys_active]
        exact hInv.keys_nodup
      · exact hinner
      · intro b' bd' hb'
        by_cases hbb : b = b'
        · subst hbb
          rw [show (⟨_, insertD st.board_data b { bd with users := bd.users ++ [⟨regUid jd env, regName jd env, assignColor infos, env.now⟩] }, _⟩ : ManagerState).board_data = insertD st.board_data b { bd with users := bd.users ++ [⟨regUid jd env, regName jd env, assignColor infos, env.now⟩] } from rfl, lookupD_insertD_self] at hb'
          rw [← Option.some.inj hb']
          show ((bd.users ++ [(⟨regUid jd env, regName jd env, assignColor infos, env.now⟩ : RosterEntry)]).map RosterEntry.id).Nodup
          rw [List.map_append]
          dsimp only [List.map_cons, List.map_nil]
          have hmem : regUid jd env ∉ bd.users.map RosterEntry.id := by
            have hnone : bd.users.find? (fun x => x.id == regUid jd env) = none := by
              cases hx : bd.users.find? (fun x => x.id == regUid jd env) with
              | none => rfl
              | some y =>
                rw [hx] at hfind'
                simp at hfind'
            rw [List.find?_eq_none] at hnone
            intro hmm
            obtain ⟨e, he, hid⟩ := List.mem_map.mp hmm
            exact absurd (by simp [hid]) (hnone e he)
          exact nodup_append_singleton _ _ (hInv.roster_nodup b bd hbd) hmem
        · rw [show (⟨_, insertD st.board_data b { bd with users := bd.users ++ [⟨regUid jd env, regName jd env, assignColor infos, env.now⟩] }, _⟩ : ManagerState).board_data = insertD st.board_data b { bd with users := bd.users ++ [⟨regUid jd env, regName jd env, assignColor infos, env.now⟩] } from rfl, lookupD_insertD_ne _ b b' _ hbb] at hb'
          exact hInv.roster_nodup b' bd' hb'

theorem inv_broadcast_fst (st : ManagerState) (b : String) (msg : OutMsg)
    (ex : Option String) (fails : Nat → Bool) (hInv : Inv st) :
    Inv (broadcast st b msg ex fails).1 := by
  cases hc : lookupD st.active_connections b with
  | none =>
    rw [broadcast_absent st b msg ex fails hc]
    exact hInv
  | some conns =>
    rw [broadcast_present st b msg ex fails conns hc]
    exact foldl_preserve Inv _ (fun s x hs => inv_disconnect s b x hs) _ st hInv

theorem inv_handleEvent (st : ManagerState) (loc : SessionLocals) (b : String)
    (d : InEvent) (env : EventEnv) (r : ManagerState × SessionLocals × List Sent)
    (hInv : Inv st) (h : handleEvent st loc b d env = .ok r) : Inv r.1 := by
  unfold handleEvent at h
  by_cases h1 : (d.type == "add_object") = true
  · rw [if_pos h1] at h
    cases hobj : d.object with
    | none =>
      rw [hobj] at h
      exact absurd h (by simp)
    | some obj0 =>
      rw [hobj] at h
      cases hbd : lookupD st.board_data b with
      | none =>
        simp only [hbd] at h
        rw [← Except.ok.inj h]
        exact inv_broadcast_fst _ b _ none env.fails hInv
      | some bd =>
        simp only [hbd] at h
        rw [← Except.ok.inj h]
        exact inv_broadcast_fst _ b _ none env.fails
          (inv_set_board st b bd _ hInv hbd rfl)
  rw [if_neg h1] at h
  by_cases h2 : (d.type == "update_user") = true
  · rw [if_pos h2] at h
    cases hui : lookupD st.user_info b with
    | none =>
      cases hbd : lookupD st.board_data b with
      | none =>
        simp only [hui, hbd] at h
        rw [← Except.ok.inj h]
        exact inv_broadcast_fst _ b _ d.userId env.fails hInv
      | some bd =>
        simp only [hui, hbd] at h
        rw [← Except.ok.inj h]
        exact inv_broadcast_fst _ b _ d.userId env.fails
          (inv_set_board st b bd _ hInv hbd (updateFirstName_map_id bd.users d.userId d.newName))
    | some infos =>
      cases hbind : d.userId.bind (fun u => (lookupD infos u).map (fun i => (u, i))) with
      | none =>
        cases hbd : lookupD st.board_data b with
        | none =>
          simp only [hui, hbind, hbd] at h
          rw [← Except.ok.inj h]
          exact inv_broadcast_fst _ b _ d.userId env.fails hInv
        | some bd =>
          simp only [hui, hbind, hbd] at h
          rw [← Except.ok.inj h]
          exact inv_broadcast_fst _ b _ d.userId env.fails
            (inv_set_board st b bd _ hInv hbd (updateFirstName_map_id bd.users d.userId d.newName))
      | some pr =>
        obtain ⟨u0, hu0, hfu⟩ := Option.bind_eq_some.mp hbind
        obtain ⟨i0, hi0, hpair⟩ := Option.map_eq_some'.mp hfu
        have hInvU : Inv { st with user_info := insertD st.user_info b (insertD infos u0 { i0 with name := d.newName }) } :=
          inv_set_user_info st b infos _ hInv hui
            (keysD_insertD_present infos u0 _ (by rw [hi0]; rfl))
        cases hbd : lookupD st.board_data b with
        | none =>
          simp only [hui, hbind, ← hpair, hbd] at h
          rw [← Except.ok.inj h]
          exact inv_broadcast_fst _ b _ d.userId env.fails hInvU
        | some bd =>
          simp only [hui, hbind, ← hpair, hbd] at h
          rw [← Except.ok.inj h]
          exact inv_broadcast_fst _ b _ d.userId env.fails
            (inv_set_board _ b bd _ hInvU hbd (updateFirstName_map_id bd.users d.userId d.newName))
  rw [if_neg h2] at h
  by_cases h3 : (d.type == "modify_object") = true
  · rw [if_pos h3] at h
    cases hobj : d.object with
    | none =>
      rw [hobj] at h
      exact absurd h (by simp)
    | some obj0 =>
      rw [hobj] at h
      cases hbd : lookupD st.board_data b with
      | none =>
        simp only [hbd] at h
        rw [← Except.ok.inj h]
        exact inv_broadcast_fst _ b _ none env.fails hInv
      | some bd =>
        simp only [hbd] at h
        rw [← Except.ok.inj h]
        exact inv_broadcast_fst _ b _ none env.fails
          (inv_set_board st b bd _ hInv hbd rfl)
  rw [if_neg h3] at h
  by_cases h4 : (d.type == "remove_object") = true
  · rw [if_pos h4] at h
    simp only [] at h
    by_cases hid : (!(falsyS (orFalsy d.object_id (d.object.bind Obj.id)))) = true
    · rw [if_pos hid] at h
      cases hbd : lookupD st.board_data b with
      | none =>
        simp only [hbd] at h
        rw [← Except.ok.inj h]
        exact inv_broadcast_fst _ b _ none env.fails hInv
      | some bd =>
        simp only [hbd] at h
        rw [← Except.ok.inj h]
        exact inv_broadcast_fst _ b _ none env.fails
          (inv_set_board st b bd _ hInv hbd rfl)
    · rw [if_neg hid] at h
      rw [← Except.ok.inj h]
      exact inv_broadcast_fst _ b _ none env.fails hInv
  rw [if_neg h4] at h
  by_cases h5 : (d.type == "clear_board") = true
  · rw [if_pos h5] at h
    cases hbd : lookupD st.board_data b with
    | none =>
      simp only [hbd] at h
      rw [← Except.ok.inj h]
      exact inv_broadcast_fst _ b _ none env.fails hInv
    | some bd =>
      simp only [hbd] at h
      rw [← Except.ok.inj h]
      exact inv_broadcast_fst _ b _ none env.fails
        (inv_set_board st b bd _ hInv hbd rfl)
  rw [if_neg h5] at h
  by_cases h6 : (d.type == "cursor_move") = true
  · rw [if_pos h6] at h
    cases hpos : d.position with
    | none =>
      rw [hpos] at h
      exact absurd h (by simp)
    | some pos =>
      rw [hpos] at h
      cases hui : lookupD st.user_info b with
      | none =>
        simp only [hui] at h
        rw [← Except.ok.inj h]
        exact inv_broadcast_fst _ b _ loc.user_id env.fails hInv
      | some infos =>
        cases hbind : loc.user_id.bind (fun u => (lookupD infos u).map (fun i => (u, i))) with
        | none =>
          simp only [hui, hbind] at h
          rw [← Except.ok.inj h]
          exact inv_broadcast_fst _ b _ loc.user_id env.fails hInv
        | some pr =>
          obtain ⟨u0, hu0, hfu⟩ := Option.bind_eq_some.mp hbind
          obtain ⟨i0, hi0, hpair⟩ := Option.map_eq_some'.mp hfu
          simp only [hui, hbind, ← hpair] at h
          rw [← Except.ok.inj h]
          refine inv_broadcast_fst _ b _ loc.user_id env.fails ?_
          exact inv_set_user_info st b infos _ hInv hui
            (keysD_insertD_present infos u0 _ (by rw [hi0]; rfl))
  rw [if_neg h6] at h
  by_cases h7 : (d.type == "ping") = true
  · rw [if_pos h7] at h
    rw [← Except.ok.inj h]
    exact hInv
  · rw [if_neg h7] at h
    rw [← Except.ok.inj h]
    exact hInv

theorem inv_applyOp (st : ManagerState) (op : MOp) (hInv : Inv st) :
    Inv (applyOp st op) := by
  cases op with
  | join ws b jd jenv => exact inv_register st ws b jd jenv hInv
  | leave b u => exact inv_disconnect st b u hInv
  | event b loc d env =>
    show Inv (match handleEvent st loc b d env with
      | .ok r => r.1
      | .error _ => st)
    cases hh : handleEvent st loc b d env with
    | ok r => exact inv_handleEvent st loc b d env r hInv hh
    | error e => exact hInv
  | bcast b msg ex fails => exact inv_broadcast_fst st b msg ex fails hInv

theorem inv_runOps (ops : List MOp) : Inv (runOps ops) :=
  foldl_preserve Inv applyOp (fun s x hs => inv_applyOp s x hs) ops initialManager inv_initial

/-- C5: a board is present in any of the three registries iff it has at
least one connected member; and a join to an absent board id (re)creates it
with an empty object log, the default white background, and a roster
holding exactly the joiner — so a rejoin after the last leave starts from
an empty log. -/
theorem board_exists_iff_nonempty_members (ops : List MOp) :
    (∀ b, ((lookupD (runOps ops).active_connections b).isSome ∨
           (lookupD (runOps ops).board_data b).isSome ∨
           (lookupD (runOps ops).user_info b).isSome) ↔
          ∃ conns, lookupD (runOps ops).active_connections b = some conns ∧ conns ≠ []) ∧
    (∀ b ws jd env, lookupD (runOps ops).active_connections b = none →
       lookupD ((register_user (runOps ops) ws b jd env).1).board_data b =
         some ⟨[], "#FFFFFF", [⟨regUid jd env, regName jd env, assignColor [], env.now⟩]⟩) := by
  have hInv := inv_runOps ops
  constructor
  · intro b
    constructor
    · intro h
      have hact : (lookupD (runOps ops).active_connections b).isSome := by
        rcases h with h | h | h
        · exact h
        · rw [← mem_keysD_iff, hInv.keys_bd, mem_keysD_iff]
          exact h
        · rw [← mem_keysD_iff, hInv.keys_ui, mem_keysD_iff]
          exact h
      obtain ⟨conns, hc⟩ := Option.isSome_iff_exists.mp hact
      have huis : (lookupD (runOps ops).user_info b).isSome := by
        rw [← mem_keysD_iff, ← hInv.keys_ui, mem_keysD_iff, hc]
        rfl
      obtain ⟨infos, hui⟩ := Option.isSome_iff_exists.mp huis
      exact ⟨conns, hc, (hInv.inner b conns infos hc hui).2.1⟩
    · rintro ⟨conns, hc, _⟩
      exact Or.inl (by rw [hc]; rfl)
  · intro b ws jd env hc
    rw [register_fresh_shape (runOps ops) ws b jd env hc]
    show lookupD (insertD (runOps ops).board_data b _) b = _
    rw [lookupD_insertD_self]

/-- Witness for C5: after `A` joins board `"b"` and leaves again, the board
data is gone, and a fresh join by `C` starts from an empty object log. -/
theorem board_exists_iff_nonempty_members_witness :
    lookupD (runOps [joinA, MOp.leave "b" "A"]).board_data "b" = none ∧
    lookupD ((register_user (runOps [joinA, MOp.leave "b" "A"]) 5 "b" ⟨some "C", none, none⟩ jenvB).1).board_data "b" =
      some ⟨[], "#FFFFFF", [⟨regUid ⟨some "C", none, none⟩ jenvB, regName ⟨some "C", none, none⟩ jenvB, assignColor [], jenvB.now⟩]⟩ :=
  ⟨by decide,
   (board_exists_iff_nonempty_members [joinA, MOp.leave "b" "A"]).2 "b" 5
     ⟨some "C", none, none⟩ jenvB (by decide)⟩

/-- C7: re-registering an id that is already in a board's roster does not
append a second entry (the whole `board_data` registry is untouched), and
along every trace every board's roster ids are pairwise distinct. -/
theorem roster_join_idempotent_and_ids_nodup :
    (∀ (st : ManagerState) (ws : Nat) (b uid : String) (jd : JoinData) (env : JoinEnv)
       (conns : Dict Nat) (infos : Dict UserInfo) (bd : BoardData),
       jd.userId = some uid → uid ≠ "" →
       lookupD st.active_connections b = some conns →
       lookupD st.user_info b = some infos →
       lookupD st.board_data b = some bd →
       uid ∈ bd.users.map RosterEntry.id →
       (register_user st ws b jd env).1.board_data = st.board_data) ∧
    (∀ ops b bd, lookupD (runOps ops).board_data b = some bd →
       (bd.users.map RosterEntry.id).Nodup) := by
  constructor
  · intro st ws b uid jd env conns infos bd hjd huid hc hui hbd hmem
    have hreg : regUid jd env = uid := by
      rw [regUid, hjd]
      rw [if_neg (by simp [falsyS, huid])]
      rfl
    have hfind : (bd.users.find? (fun x => x.id == regUid jd env)).isSome = true := by
      rw [List.find?_isSome]
      obtain ⟨e, he, hid⟩ := List.mem_map.mp hmem
      exact ⟨e, he, by simp [hid, hreg]⟩
    rw [register_existing_found st ws b jd env conns infos bd hc hui hbd hfind]
  · intro ops b bd hbd
    exact (inv_runOps ops).roster_nodup b bd hbd

/-- Witness for C7: `A` rejoining board `"b"` leaves the roster (indeed all
board data) unchanged, and the two-member roster ids are duplicate-free. -/
theorem roster_join_idempotent_and_ids_nodup_witness :
    (register_user stAB 3 "b" ⟨some "A", some "Alice", none⟩ jenvA).1.board_data
      = stAB.board_data ∧
    ((⟨[], "#FFFFFF", [⟨"A", some "Alice", "#FF6B6B", "t0"⟩, ⟨"B", some "Bob", "#4ECDC4", "t1"⟩]⟩ : BoardData).users.map RosterEntry.id).Nodup :=
  ⟨roster_join_idempotent_and_ids_nodup.1 stAB 3 "b" "A" ⟨some "A", some "Alice", none⟩ jenvA
     [("A", 1), ("B", 2)]
     [("A", ⟨"A", some "Alice", "#FF6B6B", none, "t0", none⟩),
      ("B", ⟨"B", some "Bob", "#4ECDC4", none, "t1", none⟩)]
     ⟨[], "#FFFFFF", [⟨"A", some "Alice", "#FF6B6B", "t0"⟩, ⟨"B", some "Bob", "#4ECDC4", "t1"⟩]⟩
     rfl (by decide) (by decide) (by decide) (by decide) (by decide),
   roster_join_idempotent_and_ids_nodup.2 [joinA, joinB] "b"
     ⟨[], "#FFFFFF", [⟨"A", some "Alice", "#FF6B6B", "t0"⟩, ⟨"B", some "Bob", "#4ECDC4", "t1"⟩]⟩
     (by decide)⟩

/-! ### Claim C6: color assignment -/

theorem colors_nodup : colors.Nodup := by decide

theorem assignColor_mem_colors (infos : Dict UserInfo) : assignColor infos ∈ colors := by
  unfold assignColor
  simp only []
  cases hav : colors.filter (fun c => !((infos.map (fun p => p.2.color)).contains c)) with
  | nil =>
    show colors.getD (infos.length % colors.length) "#FF6B6B" ∈ colors
    have hlt : infos.length % colors.length < colors.length := by
      apply Nat.mod_lt
      decide
    rw [List.getD_eq_getElem colors "#FF6B6B" hlt]
    exact List.getElem_mem hlt
  | cons c rest =>
    show c ∈ colors
    have hmemf : c ∈ colors.filter (fun c => !((infos.map (fun p => p.2.color)).contains c)) := by
      rw [hav]
      exact List.mem_cons_self c rest
    exact (List.mem_filter.mp hmemf).1

/-- When a palette color is unused, the assigned color is the first unused
one in palette order. -/
theorem assignColor_first_unused (infos : Dict UserInfo) (pre post : List String) (c : String)
    (hsplit : colors = pre ++ c :: post)
    (hc : c ∉ infos.map (fun p => p.2.color))
    (hpre : ∀ c' ∈ pre, c' ∈ infos.map (fun p => p.2.color)) :
    assignColor infos = c := by
  have hfil : colors.filter (fun x => !((infos.map (fun p => p.2.color)).contains x)) =
      c :: post.filter (fun x => !((infos.map (fun p => p.2.color)).contains x)) := by
    rw [hsplit, List.filter_append]
    have h1 : pre.filter (fun x => !((infos.map (fun p => p.2.color)).contains x)) = [] := by
      rw [List.filter_eq_nil_iff]
      intro x hx
      simp [hpre x hx]
    rw [h1, List.nil_append, List.filter_cons, if_pos (by simp [hc])]
  unfold assignColor
  simp only []
  rw [hfil]

/-- When every palette color is used, the fallback index is
`len(user_info) % len(colors)`. -/
theorem assignColor_exhausted (infos : Dict UserInfo)
    (h : ∀ c ∈ colors, c ∈ infos.map (fun p => p.2.color)) :
    assignColor infos = colors.getD (infos.length % colors.length) "#FF6B6B" := by
  have hfil : colors.filter (fun x => !((infos.map (fun p => p.2.color)).contains x)) = [] := by
    rw [List.filter_eq_nil_iff]
    intro x hx
    simp [h x hx]
  unfold assignColor
  simp only []
  rw [hfil]

/-- With at most 9 users present, whose colors are pairwise distinct and
palette-drawn, the assigned color is unused. -/
theorem assignColor_not_used (infos : Dict UserInfo)
    (hlen : infos.length ≤ 9) :
    assignColor infos ∉ infos.map (fun p => p.2.color) := by
  unfold assignColor
  simp only []
  cases hav : colors.filter (fun c => !((infos.map (fun p => p.2.color)).contains c)) with
  | nil =>
    exfalso
    have hsubset : colors ⊆ infos.map (fun p => p.2.color) := by
      intro c hcmem
      by_contra hnc
      have : c ∈ colors.filter (fun c => !((infos.map (fun p => p.2.color)).contains c)) :=
        List.mem_filter.mpr ⟨hcmem, by simp [hnc]⟩
      rw [hav] at this
      exact List.not_mem_nil c this
    have hle : colors.length ≤ (infos.map (fun p => p.2.color)).length :=
      (List.subperm_of_subset colors_nodup hsubset).length_le
    rw [List.length_map] at hle
    have h10 : colors.length = 10 := by decide
    omega
  | cons c rest =>
    show c ∉ infos.map (fun p => p.2.color)
    have hcmem : c ∈ colors.filter (fun c => !((infos.map (fun p => p.2.color)).contains c)) := by
      rw [hav]
      exact List.mem_cons_self c rest
    have hpred := (List.mem_filter.mp hcmem).2
    intro hmm
    rw [Bool.not_eq_true'] at hpred
    rw [show (List.map (fun p => p.2.color) infos).contains c = List.elem c (List.map (fun p => p.2.color) infos) from rfl, List.elem_eq_true_of_mem hmm] at hpred
    exact Bool.noConfusion hpred

/-- Effect of one `disconnect` on a board's user-info entry. -/
theorem user_info_after_disconnect (st : ManagerState) (bq u b : String) :
    lookupD (disconnect st bq u).1.user_info b = lookupD st.user_info b ∨
    lookupD (disconnect st bq u).1.user_info b = none ∨
    (∃ infos, lookupD st.user_info b = some infos ∧
      lookupD (disconnect st bq u).1.user_info b = some (eraseD infos u)) := by
  cases hc : lookupD st.active_connections bq with
  | none =>
    rw [disconnect_absent st bq u hc]
    exact Or.inl rfl
  | some conns =>
    cases hui : lookupD st.user_info bq with
    | none =>
      rw [disconnect_noinfo st bq u conns hc hui]
      exact Or.inl rfl
    | some infos =>
      cases hli : lookupD infos u with
      | none =>
        rw [disconnect_nouser st bq u conns infos hc hui hli]
        exact Or.inl rfl
      | some info =>
        cases hemp : (eraseD conns u).isEmpty with
        | true =>
          rw [disconnect_full_clean st bq u conns infos info hc hui hli hemp]
          by_cases hbb : bq = b
          · subst hbb
            exact Or.inr (Or.inl (lookupD_eraseD_self st.user_info bq))
          · exact Or.inl (lookupD_eraseD_ne st.user_info bq b hbb)
        | false =>
          cases hbd : lookupD st.board_data bq with
          | none =>
            rw [disconnect_full_keep_nobd st bq u conns infos info hc hui hli hbd hemp]
            by_cases hbb : bq = b
            · subst hbb
              exact Or.inr (Or.inr ⟨infos, hui, lookupD_insertD_self st.user_info bq _⟩)
            · exact Or.inl (lookupD_insertD_ne st.user_info bq b _ hbb)
          | some bd =>
            rw [disconnect_full_keep st bq u conns infos info bd hc hui hli hbd hemp]
            by_cases hbb : bq = b
            · subst hbb
              exact Or.inr (Or.inr ⟨infos, hui, lookupD_insertD_self st.user_info bq _⟩)
            · exact Or.inl (lookupD_insertD_ne st.user_info bq b _ hbb)

theorem colorsGood_disconnect (st : ManagerState) (bq u b : String)
    (hCG : ColorsGood st b) : ColorsGood (disconnect st bq u).1 b := by
  intro infos' hinfos'
  rcases user_info_after_disconnect st bq u b with h | h | ⟨infos, hui, h⟩
  · rw [h] at hinfos'
    exact hCG infos' hinfos'
  · rw [h] at hinfos'
    exact Option.noConfusion hinfos'
  · rw [h] at hinfos'
    obtain ⟨hnd, hmem⟩ := hCG infos hui
    rw [← Option.some.inj hinfos']
    constructor
    · exact hnd.sublist ((eraseD_sublist infos u).map _)
    · intro p hp
      exact hmem p ((eraseD_sublist infos u).subset hp)

theorem colorsGood_broadcast_fst (st : ManagerState) (bq : String) (msg : OutMsg)
    (ex : Option String) (fails : Nat → Bool) (b : String) (hCG : ColorsGood st b) :
    ColorsGood (broadcast st bq msg ex fails).1 b := by
  cases hc : lookupD st.active_connections bq with
  | none =>
    rw [broadcast_absent st bq msg ex fails hc]
    exact hCG
  | some conns =>
    rw [broadcast_present st bq msg ex fails conns hc]
    exact foldl_preserve (fun s => ColorsGood s b) _
      (fun s x hs => colorsGood_disconnect s bq x b hs) _ st hCG

theorem colors_mem_iff (m : Dict UserInfo) :
    (∀ p ∈ m, p.2.color ∈ colors) ↔ (∀ x ∈ m.map (fun p => p.2.color), x ∈ colors) := by
  constructor
  · intro h x hx
    obtain ⟨p, hp, hpx⟩ := List.mem_map.mp hx
    rw [← hpx]
    exact h p hp
  · intro h p hp
    exact h _ (List.mem_map_of_mem _ hp)

theorem map_color_insertD_same (infos : Dict UserInfo) (u0 : String) (i0 rec0 : UserInfo)
    (hnd : (keysD infos).Nodup) (hl : lookupD infos u0 = some i0) (hcol : rec0.color = i0.color) :
    (insertD infos u0 rec0).map (fun p => p.2.color) = infos.map (fun p => p.2.color) := by
  obtain ⟨l, r, hm, hins, _, _⟩ := insertD_present_decomp infos u0 i0 rec0 hnd hl
  rw [hins, hm]
  simp [hcol]

theorem nodup_replace_middle (lC rC : List String) (oldc c : String)
    (hnd : (lC ++ oldc :: rC).Nodup) (hc : c ∉ lC ++ oldc :: rC) :
    (lC ++ c :: rC).Nodup := by
  rw [List.nodup_middle, List.nodup_cons] at hnd ⊢
  refine ⟨?_, hnd.2⟩
  intro hmm
  apply hc
  rcases List.mem_append.mp hmm with h | h
  · exact List.mem_append_left _ h
  · exact List.mem_append_right _ (List.mem_cons_of_mem _ h)

theorem colorsGood_register (st : ManagerState) (ws : Nat) (bq : String) (jd : JoinData)
    (env : JoinEnv) (b : String) (hInv : Inv st) (hCG : ColorsGood st b)
    (hbound : bq = b → usersCount st b ≤ 9) :
    ColorsGood (register_user st ws bq jd env).1 b := by
  cases hc : lookupD st.active_connections bq with
  | none =>
    rw [register_fresh_shape st ws bq jd env hc]
    intro infos' hx
    by_cases hbb : bq = b
    · subst hbb
      rw [show (⟨_, _, insertD st.user_info bq [(regUid jd env, ⟨regUid jd env, regName jd env, assignColor [], regSid jd env, env.now, none⟩)]⟩ : ManagerState).user_info = insertD st.user_info bq [(regUid jd env, ⟨regUid jd env, regName jd env, assignColor [], regSid jd env, env.now, none⟩)] from rfl, lookupD_insertD_self] at hx
      rw [← Option.some.inj hx]
      refine ⟨by simp, ?_⟩
      intro p hp
      rw [List.mem_singleton] at hp
      rw [hp]
      exact assignColor_mem_colors []
    · rw [show (⟨_, _, insertD st.user_info bq [(regUid jd env, ⟨regUid jd env, regName jd env, assignColor [], regSid jd env, env.now, none⟩)]⟩ : ManagerState).user_info = insertD st.user_info bq [(regUid jd env, ⟨regUid jd env, regName jd env, assignColor [], regSid jd env, env.now, none⟩)] from rfl, lookupD_insertD_ne _ bq b _ hbb] at hx
      exact hCG infos' hx
  | some conns =>
    have huis : (lookupD st.user_info bq).isSome := by
      rw [← mem_keysD_iff, ← hInv.keys_ui, mem_keysD_iff, hc]
      rfl
    obtain ⟨infos0, hui⟩ := Option.isSome_iff_exists.mp huis
    have hbds : (lookupD st.board_data bq).isSome := by
      rw [← mem_keysD_iff, ← hInv.keys_bd, mem_keysD_iff, hc]
      rfl
    obtain ⟨bd, hbd⟩ := Option.isSome_iff_exists.mp hbds
    have hmain : ∀ infos', lookupD (insertD st.user_info bq (insertD infos0 (regUid jd env) ⟨regUid jd env, regName jd env, assignColor infos0, regSid jd env, env.now, none⟩)) b = some infos' →
        (infos'.map (fun p => p.2.color)).Nodup ∧ ∀ p ∈ infos', p.2.color ∈ colors := by
      intro infos' hx
      by_cases hbb : bq = b
      · subst hbb
        rw [lookupD_insertD_self] at hx
        rw [← Option.some.inj hx]
        have hlen : infos0.length ≤ 9 := by
          have := hbound rfl
          rw [usersCount, hui] at this
          exact this
        obtain ⟨hndc, hmemc⟩ := hCG infos0 hui
        have hninl : assignColor infos0 ∉ infos0.map (fun p => p.2.color) :=
          assignColor_not_used infos0 hlen
        have hcmem : assignColor infos0 ∈ colors := assignColor_mem_colors infos0
        cases hlu : lookupD infos0 (regUid jd env) with
        | none =>
          rw [insertD_absent infos0 (regUid jd env) _ hlu]
          rw [List.map_append]
          constructor
          · exact nodup_append_singleton _ _ hndc hninl
          · intro p hp
            rcases List.mem_append.mp hp with hp | hp
            · exact hmemc p hp
            · rw [List.mem_singleton] at hp
              rw [hp]
              exact hcmem
        | some old =>
          have hndk : (keysD infos0).Nodup := by
            obtain ⟨hkeq, _, hknd⟩ := hInv.inner bq conns infos0 hc hui
            rw [← hkeq]
            exact hknd
          obtain ⟨l, r, hm, hins, _, _⟩ :=
            insertD_present_decomp infos0 (regUid jd env) old _ hndk hlu
          rw [hins]
          rw [hm] at hcmem
          rw [hm, List.map_append, List.map_cons] at hndc hninl ⊢
          constructor
          · exact nodup_replace_middle _ _ old.color _ hndc hninl
          · rw [hm] at hmemc
            intro p hp
            rcases List.mem_append.mp hp with hp | hp
            · exact hmemc p (List.mem_append_left _ hp)
            · rcases List.mem_cons.mp hp with hp | hp
              · rw [hp]
                exact hcmem
              · exact hmemc p (List.mem_append_right _ (List.mem_cons_of_mem _ hp))
      · rw [lookupD_insertD_ne _ bq b _ hbb] at hx
        exact hCG infos' hx
    by_cases hfind : (bd.users.find? (fun x => x.id == regUid jd env)).isSome
    · rw [register_existing_found st ws bq jd env conns infos0 bd hc hui hbd hfind]
      intro infos' hx
      exact hmain infos' hx
    · rw [register_existing_notfound st ws bq jd env conns infos0 bd hc hui hbd (by simpa using hfind)]
      intro infos' hx
      exact hmain infos' hx

theorem colorsGood_set_user_value (st : ManagerState) (bq b : String) (infos : Dict UserInfo)
    (u0 : String) (i0 rec0 : UserInfo) (hInv : Inv st) (hCG : ColorsGood st b)
    (hui : lookupD st.user_info bq = some infos)
    (hl : lookupD infos u0 = some i0)
    (hcol : rec0.color = i0.color) :
    ColorsGood { st with user_info := insertD st.user_info bq (insertD infos u0 rec0) } b := by
  intro infos' hx
  rw [show ({ st with user_info := insertD st.user_info bq (insertD infos u0 rec0) } : ManagerState).user_info = insertD st.user_info bq (insertD infos u0 rec0) from rfl] at hx
  by_cases hbb : bq = b
  · subst hbb
    rw [lookupD_insertD_self] at hx
    rw [← Option.some.inj hx]
    have hndk : (keysD infos).Nodup := by
      have hcs : (lookupD st.active_connections bq).isSome := by
        rw [← mem_keysD_iff, hInv.keys_ui, mem_keysD_iff, hui]
        rfl
      obtain ⟨conns, hc⟩ := Option.isSome_iff_exists.mp hcs
      obtain ⟨hkeq, _, hknd⟩ := hInv.inner bq conns infos hc hui
      rw [← hkeq]
      exact hknd
    have hmapeq := map_color_insertD_same infos u0 i0 rec0 hndk hl hcol
    obtain ⟨hnd, hmem⟩ := hCG infos hui
    constructor
    · rw [hmapeq]
      exact hnd
    · rw [colors_mem_iff, hmapeq, ← colors_mem_iff]
      exact hmem
  · rw [lookupD_insertD_ne _ bq b _ hbb] at hx
    exact hCG infos' hx

theorem colorsGood_handleEvent (st : ManagerState) (loc : SessionLocals) (bq : String)
    (d : InEvent) (env : EventEnv) (r : ManagerState × SessionLocals × List Sent) (b : String)
    (hInv : Inv st) (hCG : ColorsGood st b)
    (h : handleEvent st loc bq d env = .ok r) : ColorsGood r.1 b := by
  unfold handleEvent at h
  by_cases h1 : (d.type == "add_object") = true
  · rw [if_pos h1] at h
    cases hobj : d.object with
    | none =>
      rw [hobj] at h
      exact absurd h (by simp)
    | some obj0 =>
      rw [hobj] at h
      cases hbd : lookupD st.board_data bq with
      | none =>
        simp only [hbd] at h
        rw [← Except.ok.inj h]
        exact colorsGood_broadcast_fst _ bq _ none env.fails b hCG
      | some bd =>
        simp only [hbd] at h
        rw [← Except.ok.inj h]
        exact colorsGood_broadcast_fst _ bq _ none env.fails b hCG
  rw [if_neg h1] at h
  by_cases h2 : (d.type == "update_user") = true
  · rw [if_pos h2] at h
    cases hui : lookupD st.user_info bq with
    | none =>
      cases hbd : lookupD st.board_data bq with
      | none =>
        simp only [hui, hbd] at h
        rw [← Except.ok.inj h]
        exact colorsGood_broadcast_fst _ bq _ d.userId env.fails b hCG
      | some bd =>
        simp only [hui, hbd] at h
        rw [← Except.ok.inj h]
        exact colorsGood_broadcast_fst _ bq _ d.userId env.fails b hCG
    | some infos =>
      cases hbind : d.userId.bind (fun u => (lookupD infos u).map (fun i => (u, i))) with
      | none =>
        cases hbd : lookupD st.board_data bq with
        | none =>
          simp only [hui, hbind, hbd] at h
          rw [← Except.ok.inj h]
          exact colorsGood_broadcast_fst _ bq _ d.userId env.fails b hCG
        | some bd =>
          simp only [hui, hbind, hbd] at h
          rw [← Except.ok.inj h]
          exact colorsGood_broadcast_fst _ bq _ d.userId env.fails b hCG
      | some pr =>
        obtain ⟨u0, hu0, hfu⟩ := Option.bind_eq_some.mp hbind
        obtain ⟨i0, hi0, hpair⟩ := Option.map_eq_some'.mp hfu
        have hCGU : ColorsGood { st with user_info := insertD st.user_info bq (insertD infos u0 { i0 with name := d.newName }) } b :=
          colorsGood_set_user_value st bq b infos u0 i0 _ hInv hCG hui hi0 rfl
        cases hbd : lookupD st.board_data bq with
        | none =>
          simp only [hui, hbind, ← hpair, hbd] at h
          rw [← Except.ok.inj h]
          exact colorsGood_broadcast_fst _ bq _ d.userId env.fails b hCGU
        | some bd =>
          simp only [hui, hbind, ← hpair, hbd] at h
          rw [← Except.ok.inj h]
          exact colorsGood_broadcast_fst _ bq _ d.userId env.fails b hCGU
  rw [if_neg h2] at h
  by_cases h3 : (d.type == "modify_object") = true
  · rw [if_pos h3] at h
    cases hobj : d.object with
    | none =>
      rw [hobj] at h
      exact absurd h (by simp)
    | some obj0 =>
      rw [hobj] at h
      cases hbd : lookupD st.board_data bq with
      | none =>
        simp only [hbd] at h
        rw [← Except.ok.inj h]
        exact colorsGood_broadcast_fst _ bq _ none env.fails b hCG
      | some bd =>
        simp only [hbd] at h
        rw [← Except.ok.inj h]
        exact colorsGood_broadcast_fst _ bq _ none env.fails b hCG
  rw [if_neg h3] at h
  by_cases h4 : (d.type == "remove_object") = true
  · rw [if_pos h4] at h
    simp only [] at h
    by_cases hid : (!(falsyS (orFalsy d.object_id (d.object.bind Obj.id)))) = true
    · rw [if_pos hid] at h
      cases hbd : lookupD st.board_data bq with
      | none =>
        simp only [hbd] at h
        rw [← Except.ok.inj h]
        exact colorsGood_broadcast_fst _ bq _ none env.fails b hCG
      | some bd =>
        simp only [hbd] at h
        rw [← Except.ok.inj h]
        exact colorsGood_broadcast_fst _ bq _ none env.fails b hCG
    · rw [if_neg hid] at h
      rw [← Except.ok.inj h]
      exact colorsGood_broadcast_fst _ bq _ none env.fails b hCG
  rw [if_neg h4] at h
  by_cases h5 : (d.type == "clear_board") = true
  · rw [if_pos h5] at h
    cases hbd : lookupD st.board_data bq with
    | none =>
      simp only [hbd] at h
      rw [← Except.ok.inj h]
      exact colorsGood_broadcast_fst _ bq _ none env.fails b hCG
    | some bd =>
      simp only [hbd] at h
      rw [← Except.ok.inj h]
      exact colorsGood_broadcast_fst _ bq _ none env.fails b hCG
  rw [if_neg h5] at h
  by_cases h6 : (d.type == "cursor_move") = true
  · rw [if_pos h6] at h
    cases hpos : d.position with
    | none =>
      rw [hpos] at h
      exact absurd h (by simp)
    | some pos =>
      rw [hpos] at h
      cases hui : lookupD st.user_info bq with
      | none =>
        simp only [hui] at h
        rw [← Except.ok.inj h]
        exact colorsGood_broadcast_fst _ bq _ loc.user_id env.fails b hCG
      | some infos =>
        cases hbind : loc.user_id.bind (fun u => (lookupD infos u).map (fun i => (u, i))) with
        | none =>
          simp only [hui, hbind] at h
          rw [← Except.ok.inj h]
          exact colorsGood_broadcast_fst _ bq _ loc.user_id env.fails b hCG
        | some pr =>
          obtain ⟨u0, hu0, hfu⟩ := Option.bind_eq_some.mp hbind
          obtain ⟨i0, hi0, hpair⟩ := Option.map_eq_some'.mp hfu
          simp only [hui, hbind, ← hpair] at h
          rw [← Except.ok.inj h]
          refine colorsGood_broadcast_fst _ bq _ loc.user_id env.fails b ?_
          exact colorsGood_set_user_value st bq b infos u0 i0 _ hInv hCG hui hi0 rfl
  rw [if_neg h6] at h
  by_cases h7 : (d.type == "ping") = true
  · rw [if_pos h7] at h
    rw [← Except.ok.inj h]
    exact hCG
  · rw [if_neg h7] at h
    rw [← Except.ok.inj h]
    exact hCG

theorem colorsGood_applyOp (st : ManagerState) (op : MOp) (b : String)
    (hInv : Inv st) (hCG : ColorsGood st b)
    (hbound : ∀ ws jd jenv, op = MOp.join ws b jd jenv → usersCount st b ≤ 9) :
    ColorsGood (applyOp st op) b := by
  cases op with
  | join ws bq jd jenv =>
    exact colorsGood_register st ws bq jd jenv b hInv hCG
      (fun hbb => hbound ws jd jenv (by rw [hbb]))
  | leave bq u => exact colorsGood_disconnect st bq u b hCG
  | event bq loc dd envv =>
    show ColorsGood (match handleEvent st loc bq dd envv with
      | .ok r => r.1
      | .error _ => st) b
    cases hh : handleEvent st loc bq dd envv with
    | ok r => exact colorsGood_handleEvent st loc bq dd envv r b hInv hCG hh
    | error e => exact hCG
  | bcast bq msg ex fails => exact colorsGood_broadcast_fst st bq msg ex fails b hCG

theorem colorsGood_runOps_aux (b : String) : ∀ (ops : List MOp) (st : ManagerState),
    Inv st → ColorsGood st b → joinsBounded b ops st →
    ColorsGood (ops.foldl applyOp st) b := by
  intro ops
  induction ops with
  | nil =>
    intro st _ hCG _
    exact hCG
  | cons op rest ih =>
    intro st hInv hCG hjb
    rw [List.foldl_cons]
    exact ih (applyOp st op) (inv_applyOp st op hInv)
      (colorsGood_applyOp st op b hInv hCG hjb.1) hjb.2

set_option maxRecDepth 20000 in
/-- C6 counterexample: the claim "for any board with at most 10
concurrently present users all assigned colors are pairwise distinct"
fails.  Users `u0` ... `u9` join board `"b"` (never more than 10 present);
then `u1` re-registers its stored id (the supported resume flow) while all
ten palette colors are in use, and is assigned
`colors[len(user_info) % 10] = "#FF6B6B"`, which `u0` already holds: ten
concurrently present users, two of them colored `"#FF6B6B"`. -/
theorem duplicate_color_with_ten_users :
    usersCount (runOps (joins10 ++ [rejoinU1])) "b" = 10 ∧
    ((lookupD (runOps (joins10 ++ [rejoinU1])).user_info "b").getD []).map (fun p => p.2.color)
      = ["#FF6B6B", "#FF6B6B", "#FFD166", "#06D6A0", "#118AB2", "#EF476F",
         "#7209B7", "#3A86FF", "#FB5607", "#8338EC"] ∧
    ¬ (((lookupD (runOps (joins10 ++ [rejoinU1])).user_info "b").getD []).map
        (fun p => p.2.color)).Nodup := by
  refine ⟨by decide, by decide, by decide⟩

set_option maxRecDepth 20000 in
/-- C6 (amended): color assignment is a deterministic function of the
current user map: when palette colors are unused the first unused one in
palette order is assigned, and when all 10 are in use the color at index
`len(user_info) % 10` is assigned — in particular the 11th concurrent user
receives the palette's first color.  Colors are pairwise distinct on every
board along any trace in which each registration on that board happens
while at most 9 users are registered (so with at most 10 concurrently
present users each registering once); a re-registration of a present id
while all 10 colors are in use may duplicate a color. -/
theorem color_assignment_characterization :
    (∀ (infos : Dict UserInfo) (pre post : List String) (c : String),
       colors = pre ++ c :: post → c ∉ infos.map (fun p => p.2.color) →
       (∀ c' ∈ pre, c' ∈ infos.map (fun p => p.2.color)) → assignColor infos = c) ∧
    (∀ infos : Dict UserInfo, (∀ c ∈ colors, c ∈ infos.map (fun p => p.2.color)) →
       assignColor infos = colors.getD (infos.length % colors.length) "#FF6B6B") ∧
    (∀ (ops : List MOp) (b : String), joinsBounded b ops initialManager →
       ∀ infos, lookupD (runOps ops).user_info b = some infos →
         (infos.map (fun p => p.2.color)).Nodup) ∧
    (usersCount (runOps joins10) "b" = 10 ∧
     (register_user (runOps joins10) 11 "b" ⟨some "u10", none, none⟩
        ⟨"f", "s", "n", "t"⟩).2.2.2.1 = "#FF6B6B") := by
  refine ⟨assignColor_first_unused, assignColor_exhausted, ?_, by decide, by decide⟩
  intro ops b hjb infos hinfos
  have hCG := colorsGood_runOps_aux b ops initialManager inv_initial
    (fun i hx => Option.noConfusion hx) hjb
  exact (hCG infos hinfos).1

/-- Witness for the amended C6: with one user holding `"#FF6B6B"`, the
next assignment is the second palette color; and a one-join trace keeps
colors distinct. -/
theorem color_assignment_characterization_witness :
    assignColor [("u0", ⟨"u0", none, "#FF6B6B", none, "t", none⟩)] = "#4ECDC4" ∧
    (([("A", (⟨"A", some "Alice", "#FF6B6B", none, "t0", none⟩ : UserInfo))] : Dict UserInfo).map
      (fun p => p.2.color)).Nodup := by
  constructor
  · exact color_assignment_characterization.1
      [("u0", ⟨"u0", none, "#FF6B6B", none, "t", none⟩)]
      ["#FF6B6B"]
      ["#FFD166", "#06D6A0", "#118AB2", "#EF476F", "#7209B7", "#3A86FF", "#FB5607", "#8338EC"]
      "#4ECDC4" (by decide) (by decide) (by decide)
  · exact color_assignment_characterization.2.2.1 [joinA] "b"
      ⟨fun ws jd jenv hx => by decide, trivial⟩
      [("A", ⟨"A", some "Alice", "#FF6B6B", none, "t0", none⟩)] (by decide)
